import Mathlib

/-!
# Verification of the SEO-audit crawl/score engine (`seo_audit.py`)

A shallow embedding of the crawl/audit/scoring core of `seo_audit.py`:
URL normalisation (`norm_url`, `host`, `same_host`, `is_anchor_link`),
the page signal extractor (`audit_from_dom` with its link-classification
loop and finding rules), structured-data extraction
(`extract_schema_types_from_jsonld_blocks`, with a strict JSON parse and
the permissive `"@type"` pattern fallback), the page scorer (`score_page`),
the site aggregator (`sector_scores`, `overall_score`) and the crawl
frontier (`run_audit`).

Modelling conventions:
* Python machine floats only ever enter this core through comparisons and
  small exact sums (`load_time_sec` thresholds, score weights); they are
  modelled as exact rationals (`ℚ`), and Python 3's `round` (banker's
  rounding) as `round_half_even`.
* Python's `str.strip`, `str.startswith`, `str.lower` and `str.split` are
  modelled on the character list of the string (`py_strip`,
  `py_startswith`, `py_lower`, `count_words`); whitespace is Lean's ASCII
  `Char.isWhitespace`, matching Python on ASCII text.
* `urllib.parse.urldefrag` (CPython): a URL without `'#'` is returned
  unchanged; otherwise the URL is reparsed and rebuilt without its
  fragment, which for URLs whose pre-fragment part round-trips
  `urlparse`/`urlunparse` (all ordinary http(s) URLs) is the prefix before
  the first `'#'` with a recognised scheme prefix lowercased (CPython's
  `urlsplit` lowercases the scheme).  `urlparse(u).netloc` is the chunk
  after a leading `"//"` (scheme removed) up to the first of `/?#`.
* `urllib.parse.urljoin`, the browser rendering layer and BeautifulSoup's
  markup parsing are external collaborators: they enter as opaque
  function parameters / pre-extracted `DomSignals` data, exactly at the
  interface the source consumes them.
-/

namespace SeoAudit

/-! ## Python string primitives -/

/-- Python whitespace test restricted to ASCII (`str.strip` / `str.split`
semantics on ASCII text). -/
def py_ws (c : Char) : Bool := c.isWhitespace

/-- `str.strip()`: drop whitespace from both ends. -/
def py_strip (s : String) : String :=
  String.mk (((s.data.dropWhile py_ws).reverse.dropWhile py_ws).reverse)

/-- `str.startswith(pre)`. -/
def py_startswith (s pre : String) : Bool := pre.data.isPrefixOf s.data

/-- `str.lower()` on ASCII text. -/
def py_lower (s : String) : String := String.mk (s.data.map Char.toLower)

/-- `pat in s` (Python substring containment). -/
def py_contains_sub (s pat : String) : Bool :=
  s.data.tails.any (fun t => pat.data.isPrefixOf t)

/-- `len(text.split())`: the number of maximal nonempty whitespace-free runs. -/
def count_words_aux : List Char → Bool → Nat
  | [], _ => 0
  | c :: rest, inWord =>
    if py_ws c then count_words_aux rest false
    else (if inWord then 0 else 1) + count_words_aux rest true

/-- `len(s.split())` as the source computes a word count. -/
def count_words (s : String) : Nat := count_words_aux s.data false

/-! ## URL utilities (`norm_url`, `host`, `same_host`, `is_anchor_link`) -/

/-- A character of `urllib.parse.scheme_chars`
(ASCII letters, digits, `+`, `-`, `.`). -/
def scheme_char (c : Char) : Bool := c.isAlphanum || c = '+' || c = '-' || c = '.'

/-- Split a character list at the first `':'` (CPython `url.find(':')`):
`some (before, after)` when a colon occurs, `none` otherwise. -/
def findColonSplit : List Char → Option (List Char × List Char)
  | [] => none
  | c :: rest =>
    if c = ':' then some ([], rest)
    else
      match findColonSplit rest with
      | some (pre, post) => some (c :: pre, post)
      | none => none

/-- CPython `urlsplit` scheme recognition: the prefix before the first `':'`
is a scheme iff it is nonempty, begins with an ASCII letter and consists of
scheme characters; the recognised scheme is lowercased.  Returns
`some (lowercased scheme, text after the colon)` or `none`. -/
def splitSchemeChars (l : List Char) : Option (List Char × List Char) :=
  match findColonSplit l with
  | none => none
  | some ([], _) => none
  | some (c0 :: cs, rest) =>
    if c0.isAlpha ∧ (c0 :: cs).all scheme_char then
      some ((c0 :: cs).map Char.toLower, rest)
    else none

/-- `urllib.parse.urldefrag(s)[0]` (see the modelling note in the header):
identity when `s` has no `'#'`; otherwise the prefix before the first `'#'`
with a recognised scheme lowercased. -/
def urldefrag_str (s : String) : String :=
  if '#' ∈ s.data then
    let p := s.data.takeWhile (· ≠ '#')
    match splitSchemeChars p with
    | some (sc, rest) => String.mk (sc ++ ':' :: rest)
    | none => String.mk p
  else s

/-- `norm_url` (source lines 55–58): strip surrounding whitespace, then drop
the fragment. -/
def norm_url (u : String) : String := urldefrag_str (py_strip u)

/-- `urlparse(url).netloc`: after removing a recognised scheme, the chunk
following a leading `"//"` up to the first of `/`, `?`, `#` (empty when the
remainder does not start with `"//"`). -/
def py_netloc (s : String) : String :=
  let rest := match splitSchemeChars s.data with
    | some (_, r) => r
    | none => s.data
  match rest with
  | '/' :: '/' :: r => String.mk (r.takeWhile (fun c => c ≠ '/' ∧ c ≠ '?' ∧ c ≠ '#'))
  | _ => ""

/-- `host` (source lines 60–61): `urlparse(url).netloc.lower()`. -/
def host (url : String) : String := py_lower (py_netloc url)

/-- `same_host` (source lines 63–64). -/
def same_host (a b : String) : Bool := host a == host b

/-- `urlparse(url).scheme` as `run_audit` uses it to build the base URL. -/
def py_scheme (s : String) : String :=
  match splitSchemeChars s.data with
  | some (sc, _) => String.mk sc
  | none => ""

/-- `is_anchor_link` (source lines 295–309): a stripped href beginning with
`"#"` or `"/#"`; the empty href is not an anchor. -/
def is_anchor_link (href : String) : Bool :=
  if href = "" then false
  else
    let h := py_strip href
    py_startswith h "#" || py_startswith h "/#"

/-- `clamp` (source lines 72–73). -/
def clamp (n lo hi : Int) : Int := max lo (min hi n)

/-! ## Data model: `PageAudit` and `SiteAudit` -/

/-- The `PageAudit` dataclass (source lines 97–132).  `status` is
`Optional[int]`; `load_time_sec` (a Python float used only in comparisons
and sums) is a rational; the `og`/`twitter` dicts are ordered key/value
lists. -/
structure PageAudit where
  url : String
  final_url : String := ""
  status : Option Int := none
  load_time_sec : ℚ := 0
  title : String := ""
  meta_description : String := ""
  meta_robots : String := ""
  canonical : String := ""
  lang : String := ""
  viewport : Bool := false
  og : List (String × String) := []
  twitter : List (String × String) := []
  h1 : List String := []
  h2 : List String := []
  h3 : List String := []
  word_count : Nat := 0
  internal_links : Nat := 0
  external_links : Nat := 0
  anchor_links : Nat := 0
  nofollow_links : Nat := 0
  images : Nat := 0
  images_missing_alt : Nat := 0
  schema_types : List String := []
  issues : List String := []
  wins : List String := []
deriving DecidableEq

/-- The `SiteAudit` dataclass (source lines 135–147); the three endpoint
flags are tri-state `Optional[bool]`. -/
structure SiteAudit where
  start_url : String
  host : String
  pages : List PageAudit := []
  robots_url : String := ""
  sitemap_url : String := ""
  llms_url : String := ""
  robots_ok : Option Bool := none
  sitemap_ok : Option Bool := none
  llms_ok : Option Bool := none

/-! ## Page scorer (`score_page`, source lines 477–552) -/

/-- Heuristic constants (source lines 42–44). -/
def TITLE_MIN : Nat := 15

def TITLE_MAX : Nat := 65

def DESC_MIN : Nat := 70

def DESC_MAX : Nat := 160

def MIN_WORDS_OK : Nat := 250

/-- The six-category breakdown dict returned by `score_page`
(keys `meta`, `content`, `structure`, `schema`, `links_media`,
`basics_perf`; `struct` follows the source's local variable name). -/
structure Breakdown where
  meta : Int
  content : Int
  struct : Int
  schema : Int
  links_media : Int
  basics_perf : Int

/-- Python truthiness of `Optional[int]` (`None` and `0` are falsy). -/
def statusTruthy : Option Int → Bool
  | none => false
  | some n => n ≠ 0

/-- Python truthiness of `Optional[bool]` (`None` and `False` are falsy). -/
def optBoolTruthy : Option Bool → Bool
  | none => false
  | some b => b

/-- `score_page` meta block (max 25): title/description length windows,
canonical presence. -/
def meta_score (p : PageAudit) : Int :=
  clamp
    ((if p.title ≠ "" then
        (if TITLE_MIN ≤ p.title.length ∧ p.title.length ≤ TITLE_MAX then 10 else 6)
      else 0)
     + (if p.meta_description ≠ "" then
          (if DESC_MIN ≤ p.meta_description.length ∧ p.meta_description.length ≤ DESC_MAX
           then 10 else 6)
        else 0)
     + (if p.canonical ≠ "" then 5 else 0)) 0 25

/-- `score_page` content block (max 25): word count tiers, H2/H3 presence,
language attribute. -/
def content_score (p : PageAudit) : Int :=
  clamp
    ((if MIN_WORDS_OK ≤ p.word_count then 12
      else if 150 ≤ p.word_count then 8
      else if 80 ≤ p.word_count then 4
      else 0)
     + (if 1 ≤ p.h2.length then 6 else 0)
     + (if 1 ≤ p.h3.length then 3 else 0)
     + (if p.lang ≠ "" then 4 else 0)) 0 25

/-- `score_page` structure block (max 15): H1 count, viewport meta. -/
def struct_score (p : PageAudit) : Int :=
  clamp
    ((if p.h1.length = 1 then 10 else if 1 < p.h1.length then 6 else 0)
     + (if p.viewport then 5 else 0)) 0 15

/-- The preferred structured-data types of `score_page`. -/
def preferred_types : List String :=
  ["Organization", "LocalBusiness", "ProfessionalService", "Person", "WebSite"]

/-- `score_page` schema block (max 15): 12 for any type, 15 when a
preferred type occurs. -/
def schema_score (p : PageAudit) : Int :=
  clamp
    (if p.schema_types ≠ [] then
       (if p.schema_types.any (fun t => preferred_types.contains t) then 15 else 12)
     else 0) 0 15

/-- `score_page` links/media block (max 10): missing-alt ratio tiers and
internal/external link presence. -/
def links_media_score (p : PageAudit) : Int :=
  clamp
    ((if p.images = 0 then 2
      else
        let missing_frac : ℚ := (p.images_missing_alt : ℚ) / ((max 1 p.images : Nat) : ℚ)
        if missing_frac = 0 then 5 else if missing_frac ≤ 1/4 then 3 else 1)
     + (if 3 ≤ p.internal_links then 3 else if 1 ≤ p.internal_links then 2 else 0)
     + (if 1 ≤ p.external_links then 2 else 0)) 0 10

/-- `score_page` basics/perf block (max 10, the only block with a negative
sub-term): 2xx status, noindex penalty, load-time tiers. -/
def basics_perf_score (p : PageAudit) : Int :=
  clamp
    ((match p.status with
      | some s => if s ≠ 0 ∧ 200 ≤ s ∧ s < 300 then 4 else 0
      | none => 0)
     + (if p.meta_robots ≠ "" ∧ py_contains_sub (py_lower p.meta_robots) "noindex" then -4 else 0)
     + (if p.load_time_sec < 2 then 6
        else if p.load_time_sec < 4 then 4
        else if p.load_time_sec < 6 then 2
        else 0)) 0 10

/-- `score_page` (source lines 477–552): the six clamped category scores and
their sum. -/
def score_page (p : PageAudit) : Int × Breakdown :=
  let b : Breakdown :=
    { meta := meta_score p
      content := content_score p
      struct := struct_score p
      schema := schema_score p
      links_media := links_media_score p
      basics_perf := basics_perf_score p }
  (b.meta + b.content + b.struct + b.schema + b.links_media + b.basics_perf, b)

/-! ### Clamp bounds -/

lemma clamp_lo {n lo hi : Int} : lo ≤ clamp n lo hi := le_max_left _ _

lemma clamp_hi {n lo hi : Int} (h : lo ≤ hi) : clamp n lo hi ≤ hi :=
  max_le h (min_le_left _ _)

lemma clamp_eq_of_le {n lo hi : Int} (h1 : lo ≤ n) (h2 : n ≤ hi) : clamp n lo hi = n := by
  unfold clamp
  rw [min_eq_right h2, max_eq_right h1]

lemma meta_score_bounds (p : PageAudit) : 0 ≤ meta_score p ∧ meta_score p ≤ 25 :=
  ⟨clamp_lo, clamp_hi (by norm_num)⟩

lemma content_score_bounds (p : PageAudit) : 0 ≤ content_score p ∧ content_score p ≤ 25 :=
  ⟨clamp_lo, clamp_hi (by norm_num)⟩

lemma struct_score_bounds (p : PageAudit) : 0 ≤ struct_score p ∧ struct_score p ≤ 15 :=
  ⟨clamp_lo, clamp_hi (by norm_num)⟩

lemma schema_score_bounds (p : PageAudit) : 0 ≤ schema_score p ∧ schema_score p ≤ 15 :=
  ⟨clamp_lo, clamp_hi (by norm_num)⟩

lemma links_media_score_bounds (p : PageAudit) :
    0 ≤ links_media_score p ∧ links_media_score p ≤ 10 :=
  ⟨clamp_lo, clamp_hi (by norm_num)⟩

lemma basics_perf_score_bounds (p : PageAudit) :
    0 ≤ basics_perf_score p ∧ basics_perf_score p ≤ 10 :=
  ⟨clamp_lo, clamp_hi (by norm_num)⟩

/-- C1.  `score_page` is total on every `PageAudit` record; it returns a
total in `[0, 100]`, a breakdown over exactly the six categories with each
category in `[0, ceiling]` for ceilings 25, 25, 15, 15, 10, 10, and the
total is exactly the sum of the six breakdown values. -/
theorem score_page_total_in_range_and_breakdown_sums (p : PageAudit) :
    0 ≤ (score_page p).1 ∧ (score_page p).1 ≤ 100 ∧
    (score_page p).1 =
      (score_page p).2.meta + (score_page p).2.content + (score_page p).2.struct +
      (score_page p).2.schema + (score_page p).2.links_media + (score_page p).2.basics_perf ∧
    0 ≤ (score_page p).2.meta ∧ (score_page p).2.meta ≤ 25 ∧
    0 ≤ (score_page p).2.content ∧ (score_page p).2.content ≤ 25 ∧
    0 ≤ (score_page p).2.struct ∧ (score_page p).2.struct ≤ 15 ∧
    0 ≤ (score_page p).2.schema ∧ (score_page p).2.schema ≤ 15 ∧
    0 ≤ (score_page p).2.links_media ∧ (score_page p).2.links_media ≤ 10 ∧
    0 ≤ (score_page p).2.basics_perf ∧ (score_page p).2.basics_perf ≤ 10 := by
  obtain ⟨hm1, hm2⟩ := meta_score_bounds p
  obtain ⟨hc1, hc2⟩ := content_score_bounds p
  obtain ⟨hs1, hs2⟩ := struct_score_bounds p
  obtain ⟨hx1, hx2⟩ := schema_score_bounds p
  obtain ⟨hl1, hl2⟩ := links_media_score_bounds p
  obtain ⟨hb1, hb2⟩ := basics_perf_score_bounds p
  refine ⟨?_, ?_, rfl, hm1, hm2, hc1, hc2, hs1, hs2, hx1, hx2, hl1, hl2, hb1, hb2⟩
  · show (0 : Int) ≤ meta_score p + content_score p + struct_score p + schema_score p +
      links_media_score p + basics_perf_score p
    linarith
  · show meta_score p + content_score p + struct_score p + schema_score p +
      links_media_score p + basics_perf_score p ≤ 100
    linarith

/-! ## URL normalisation: facts about `py_strip` and `urldefrag_str` (C4) -/

lemma py_strip_data (s : String) :
    (py_strip s).data = List.rdropWhile py_ws (s.data.dropWhile py_ws) := rfl

lemma mem_py_strip_subset {c : Char} {s : String} (h : c ∈ (py_strip s).data) :
    c ∈ s.data := by
  rw [py_strip_data] at h
  exact List.dropWhile_subset _ ((List.rdropWhile_prefix py_ws _).subset h)

lemma py_strip_idem (s : String) : py_strip (py_strip s) = py_strip s := by
  show String.mk (List.rdropWhile py_ws
    ((List.rdropWhile py_ws (s.data.dropWhile py_ws)).dropWhile py_ws)) = _
  have hA : (List.rdropWhile py_ws (s.data.dropWhile py_ws)).dropWhile py_ws =
      List.rdropWhile py_ws (s.data.dropWhile py_ws) := by
    rw [List.dropWhile_eq_self_iff]
    intro hl
    have hpre := List.rdropWhile_prefix py_ws (s.data.dropWhile py_ws)
    have hlen : 0 < (s.data.dropWhile py_ws).length := lt_of_lt_of_le hl hpre.length_le
    have hget : (List.rdropWhile py_ws (s.data.dropWhile py_ws)).get ⟨0, hl⟩ =
        (s.data.dropWhile py_ws).get ⟨0, hlen⟩ := by
      simp only [List.get_eq_getElem]
      exact hpre.getElem hl
    rw [hget]
    exact List.dropWhile_get_zero_not py_ws s.data hlen
  rw [hA, List.rdropWhile_idempotent]
  rfl

lemma char_toNat_ofNat_of_valid {n : Nat} (h : n < 55296) : (Char.ofNat n).toNat = n := by
  have hv : n.isValidChar := Or.inl h
  rw [Char.ofNat, dif_pos hv]
  rfl

lemma scheme_char_toLower_ne_hash {c : Char} (h : scheme_char c = true) :
    Char.toLower c ≠ '#' := by
  intro he
  rw [show Char.toLower c =
    (if c.toNat ≥ 65 ∧ c.toNat ≤ 90 then Char.ofNat (c.toNat + 32) else c) from rfl] at he
  by_cases hc : c.toNat ≥ 65 ∧ c.toNat ≤ 90
  · rw [if_pos hc] at he
    have h1 : (Char.ofNat (c.toNat + 32)).toNat = c.toNat + 32 :=
      char_toNat_ofNat_of_valid (by omega)
    rw [he] at h1
    have h2 : ('#').toNat = 35 := rfl
    rw [h2] at h1
    omega
  · rw [if_neg hc] at he
    rw [he] at h
    exact absurd h (by decide)

lemma findColonSplit_eq {l pre post : List Char}
    (h : findColonSplit l = some (pre, post)) : l = pre ++ ':' :: post := by
  induction l generalizing pre post with
  | nil => simp [findColonSplit] at h
  | cons c rest ih =>
    rw [findColonSplit] at h
    by_cases hc : c = ':'
    · rw [if_pos hc] at h
      obtain ⟨h1, h2⟩ := Prod.mk.inj (Option.some.inj h)
      rw [← h1, ← h2, hc]
      rfl
    · rw [if_neg hc] at h
      rcases hf : findColonSplit rest with _ | ⟨pre2, post2⟩ <;> rw [hf] at h
      · simp at h
      · obtain ⟨h1, h2⟩ := Prod.mk.inj (Option.some.inj h)
        rw [← h1, ← h2]
        have := ih hf
        rw [this]
        rfl

lemma splitSchemeChars_some {l sc rest : List Char}
    (h : splitSchemeChars l = some (sc, rest)) :
    ∃ pre : List Char, l = pre ++ ':' :: rest ∧ sc = pre.map Char.toLower ∧
      ∀ c ∈ pre, scheme_char c = true := by
  unfold splitSchemeChars at h
  split at h
  · exact absurd h (by simp)
  · exact absurd h (by simp)
  · rename_i c0 cs rest2 hf
    split at h
    · rename_i hcond
      obtain ⟨h1, h2⟩ := Prod.mk.inj (Option.some.inj h)
      refine ⟨c0 :: cs, ?_, h1.symm, ?_⟩
      · rw [h2] at hf
        exact findColonSplit_eq hf
      · intro c hc
        have := hcond.2
        rw [List.all_eq_true] at this
        exact this c hc
    · exact absurd h (by simp)

lemma urldefrag_eq_self_of_no_hash {s : String} (hs : '#' ∉ s.data) :
    urldefrag_str s = s := by
  unfold urldefrag_str
  rw [if_neg hs]

lemma hash_not_mem_takeWhile {l : List Char} : '#' ∉ l.takeWhile (· ≠ '#') := by
  intro h
  have := List.mem_takeWhile_imp h
  simp at this

lemma norm_url_no_hash (u : String) : '#' ∉ (norm_url u).data := by
  unfold norm_url urldefrag_str
  by_cases hm : '#' ∈ (py_strip u).data
  · rw [if_pos hm]
    rcases hsp : splitSchemeChars ((py_strip u).data.takeWhile (· ≠ '#')) with _ | ⟨sc, rest⟩
    · simp only [hsp]
      exact hash_not_mem_takeWhile
    · simp only [hsp]
      obtain ⟨pre, heq, hsc, hall⟩ := splitSchemeChars_some hsp
      intro hmem
      have hmem' : '#' ∈ sc ++ ':' :: rest := hmem
      rcases List.mem_append.mp hmem' with h1 | h2
      · rw [hsc] at h1
        obtain ⟨c, hc, hlc⟩ := List.mem_map.mp h1
        exact scheme_char_toLower_ne_hash (hall c hc) hlc
      · rcases List.mem_cons.mp h2 with h3 | h4
        · exact absurd h3.symm (by decide)
        · have hin : '#' ∈ (py_strip u).data.takeWhile (· ≠ '#') := by
            rw [heq]
            exact List.mem_append.mpr (Or.inr (List.mem_cons_of_mem _ h4))
          exact hash_not_mem_takeWhile hin
  · rw [if_neg hm]
    exact hm

lemma norm_url_eq_strip_of_no_hash {u : String} (h : '#' ∉ u.data) :
    norm_url u = py_strip u := by
  unfold norm_url
  exact urldefrag_eq_self_of_no_hash (fun hc => h (mem_py_strip_subset hc))

lemma norm_url_idem_of_no_hash {v : String} (h : '#' ∉ v.data) :
    norm_url (norm_url v) = norm_url v := by
  have h1 : norm_url v = py_strip v := norm_url_eq_strip_of_no_hash h
  have h2 : '#' ∉ (py_strip v).data := fun hc => h (mem_py_strip_subset hc)
  rw [h1, norm_url_eq_strip_of_no_hash h2, py_strip_idem]

/-- C4 counterexample.  `norm_url` is not idempotent: stripping the fragment
of `"https://a.com/x #y"` exposes a trailing space that only a second pass
trims.  And `norm_url` does not leave the scheme unchanged: when a fragment
is stripped the reparse lowercases the scheme. -/
theorem norm_url_not_idempotent_cex :
    norm_url (norm_url "https://a.com/x #y") ≠ norm_url "https://a.com/x #y" ∧
    norm_url "HTTP://a.com/x#y" = "http://a.com/x" := by
  constructor
  · decide
  · decide

/-- C4 (amended).  `norm_url` trims surrounding whitespace and truncates at
the first `'#'` (lowercasing a recognised scheme prefix when a fragment is
stripped): on a fragment-free URL it only trims; it is idempotent on every
URL whose normal form carries no surrounding whitespace left to trim (in
particular whenever `'#'` does not occur), and `norm_url ∘ norm_url` is
always idempotent; `norm_url "https://a.com/x#y" = "https://a.com/x"`. -/
theorem norm_url_strips_fragment_and_norm_norm_idempotent :
    (∀ u : String, '#' ∉ u.data → norm_url u = py_strip u) ∧
    (∀ u : String, py_strip (norm_url u) = norm_url u →
      norm_url (norm_url u) = norm_url u) ∧
    (∀ u : String, norm_url (norm_url (norm_url u)) = norm_url (norm_url u)) ∧
    norm_url "https://a.com/x#y" = "https://a.com/x" := by
  refine ⟨fun u h => norm_url_eq_strip_of_no_hash h, fun u h => ?_, fun u => ?_, by decide⟩
  · conv_lhs => rw [norm_url, h]
    exact urldefrag_eq_self_of_no_hash (norm_url_no_hash u)
  · exact norm_url_idem_of_no_hash (norm_url_no_hash u)

/-! ## Site aggregator (`sector_scores`, `overall_score`, source lines 555–622) -/

/-- Python `int(q)` for the nonnegative rationals the aggregator produces
(truncation towards zero). -/
def py_int (q : ℚ) : Int := if 0 ≤ q then ⌊q⌋ else -⌊-q⌋

/-- Python 3 `round` to an integer: round half to even (banker's rounding). -/
def round_half_even (q : ℚ) : Int :=
  if q - ⌊q⌋ < 1/2 then ⌊q⌋
  else if 1/2 < q - ⌊q⌋ then ⌊q⌋ + 1
  else if 2 ∣ ⌊q⌋ then ⌊q⌋ else ⌊q⌋ + 1

/-- The six site-wide category scores returned by `sector_scores` (dict keys
`Rastreabilidade & Indexação`, `Conteúdo & Estrutura`,
`Dados Estruturados (Schema)`, `Links & Mídia`, `Performance (básica)`,
`Social & Compartilhamento`); field names follow the source's local
variables. -/
structure SectorScores where
  rast : Int
  content : Int
  schema : Int
  links_media : Int
  perf : Int
  social : Int

/-- The fraction of pages satisfying a predicate (`sum(1 for p in pages if
cond) / len(pages)` as a rational). -/
def page_frac (pages : List PageAudit) (cond : PageAudit → Prop) [DecidablePred cond] : ℚ :=
  ((pages.countP (fun p => decide (cond p)) : Nat) : ℚ) / ((pages.length : Nat) : ℚ)

/-- `sector_scores` crawlability block: 34/33/33 for the truthy endpoint
flags, clamped to `[0, 100]`. -/
def rast_score (site : SiteAudit) : Int :=
  clamp ((if optBoolTruthy site.robots_ok then 34 else 0) +
    (if optBoolTruthy site.sitemap_ok then 33 else 0) +
    (if optBoolTruthy site.llms_ok then 33 else 0)) 0 100

/-- `sector_scores` content block: weighted page fractions, truncated and
clamped. -/
def content_sector (pages : List PageAudit) : Int :=
  clamp (py_int (page_frac pages (fun p => p.h1.length = 1) * 25 +
    page_frac pages (fun p => p.title ≠ "") * 25 +
    page_frac pages (fun p => p.meta_description ≠ "") * 20 +
    page_frac pages (fun p => 150 ≤ p.word_count) * 20 +
    page_frac pages (fun p => p.lang ≠ "") * 10)) 0 100

/-- `sector_scores` schema block. -/
def schema_sector (pages : List PageAudit) : Int :=
  clamp (py_int (page_frac pages (fun p => p.schema_types ≠ []) * 100)) 0 100

/-- `sector_scores` links & media block. -/
def links_media_sector (pages : List PageAudit) : Int :=
  clamp (py_int (page_frac pages (fun p => p.images = 0 ∨ p.images_missing_alt = 0) * 50 +
    page_frac pages (fun p => 1 ≤ p.internal_links) * 50)) 0 100

/-- `sector_scores` performance block: a step function of the mean load
time. -/
def perf_sector (pages : List PageAudit) : Int :=
  let avg : ℚ := (pages.map (fun p => p.load_time_sec)).sum / ((pages.length : Nat) : ℚ)
  if avg < 2 then 95 else if avg < 4 then 85 else if avg < 6 then 70 else 55

/-- `sector_scores` social block. -/
def social_sector (pages : List PageAudit) : Int :=
  py_int (page_frac pages (fun p => p.og ≠ [] ∨ p.twitter ≠ []) * 100)

/-- `sector_scores` (source lines 555–609): all six categories are 0 on an
empty page list; otherwise crawlability comes from the three endpoint flags,
the other five from per-page fractions and the mean load time. -/
def sector_scores (site : SiteAudit) : SectorScores :=
  if site.pages = [] then ⟨0, 0, 0, 0, 0, 0⟩
  else
    ⟨rast_score site, content_sector site.pages, schema_sector site.pages,
      links_media_sector site.pages, perf_sector site.pages, social_sector site.pages⟩

/-- `overall_score` (source lines 612–622): the weighted sum of the six
sector scores (weights written as the source's float literals, which are
exact decimals here), passed through `int(round(·))` — Python 3 rounds half
to even. -/
def overall_score (site : SiteAudit) : Int :=
  let sec := sector_scores site
  round_half_even ((sec.rast : ℚ) * 0.20 + (sec.content : ℚ) * 0.25 +
    (sec.schema : ℚ) * 0.20 + (sec.links_media : ℚ) * 0.15 +
    (sec.perf : ℚ) * 0.10 + (sec.social : ℚ) * 0.10)

/-! ### The rounding in `overall_score` picks a nearest integer (C5) -/

lemma round_half_even_nearest (q : ℚ) (k : Int) :
    |((round_half_even q : Int) : ℚ) - q| ≤ |((k : Int) : ℚ) - q| := by
  have hfl : ((⌊q⌋ : Int) : ℚ) ≤ q := Int.floor_le q
  have hfu : q < ((⌊q⌋ : Int) : ℚ) + 1 := Int.lt_floor_add_one q
  have hk : ((k : Int) : ℚ) ≤ ((⌊q⌋ : Int) : ℚ) ∨ ((⌊q⌋ : Int) : ℚ) + 1 ≤ ((k : Int) : ℚ) := by
    rcases le_or_lt k ⌊q⌋ with h | h
    · exact Or.inl (by exact_mod_cast h)
    · right
      have : ⌊q⌋ + 1 ≤ k := h
      exact_mod_cast this
  have hkabs : q - ((⌊q⌋ : Int) : ℚ) ≤ |((k : Int) : ℚ) - q| ∨
      ((⌊q⌋ : Int) : ℚ) + 1 - q ≤ |((k : Int) : ℚ) - q| := by
    rcases hk with h | h
    · left
      have : ((k : Int) : ℚ) - q ≤ 0 := by linarith
      rw [abs_of_nonpos this]
      linarith
    · right
      have : 0 ≤ ((k : Int) : ℚ) - q := by linarith
      rw [abs_of_nonneg this]
      linarith
  unfold round_half_even
  split
  · rename_i h1
    have : |((⌊q⌋ : Int) : ℚ) - q| = q - ((⌊q⌋ : Int) : ℚ) := by
      rw [abs_of_nonpos (by linarith)]
      ring
    rw [this]
    rcases hkabs with h | h
    · exact h
    · linarith
  · rename_i h1
    push_neg at h1
    split
    · rename_i h2
      have : |(((⌊q⌋ + 1 : Int)) : ℚ) - q| = ((⌊q⌋ : Int) : ℚ) + 1 - q := by
        push_cast
        rw [abs_of_nonneg (by linarith)]
      rw [this]
      rcases hkabs with h | h
      · linarith
      · exact h
    · rename_i h2
      push_neg at h2
      have heq : q - ((⌊q⌋ : Int) : ℚ) = 1/2 := le_antisymm h2 h1
      split
      · have : |((⌊q⌋ : Int) : ℚ) - q| = q - ((⌊q⌋ : Int) : ℚ) := by
          rw [abs_of_nonpos (by linarith)]
          ring
        rw [this, heq]
        rcases hkabs with h | h
        · linarith [heq]
        · linarith [heq]
      · have : |(((⌊q⌋ + 1 : Int)) : ℚ) - q| = ((⌊q⌋ : Int) : ℚ) + 1 - q := by
          push_cast
          rw [abs_of_nonneg (by linarith)]
        rw [this]
        rcases hkabs with h | h
        · linarith [heq]
        · linarith [heq]

/-- C5.  `overall_score` is the weighted sum of the six sector scores with
the fixed weights 0.20, 0.25, 0.20, 0.15, 0.10, 0.10 (crawlability, content,
schema, links & media, performance, social), rounded to a nearest integer:
no integer is strictly closer to the weighted sum than the returned score. -/
theorem overall_score_is_nearest_int_of_weighted_sum (site : SiteAudit) (k : Int) :
    |((overall_score site : Int) : ℚ) -
        (((sector_scores site).rast : ℚ) * 0.20 + ((sector_scores site).content : ℚ) * 0.25 +
         ((sector_scores site).schema : ℚ) * 0.20 +
         ((sector_scores site).links_media : ℚ) * 0.15 +
         ((sector_scores site).perf : ℚ) * 0.10 + ((sector_scores site).social : ℚ) * 0.10)| ≤
    |((k : Int) : ℚ) -
        (((sector_scores site).rast : ℚ) * 0.20 + ((sector_scores site).content : ℚ) * 0.25 +
         ((sector_scores site).schema : ℚ) * 0.20 +
         ((sector_scores site).links_media : ℚ) * 0.15 +
         ((sector_scores site).perf : ℚ) * 0.10 + ((sector_scores site).social : ℚ) * 0.10)| :=
  round_half_even_nearest _ k

/-! ### Crawlability sector (C10) -/

lemma optBoolTruthy_eq_some_true (o : Option Bool) :
    optBoolTruthy o = true ↔ o = some true := by
  cases o with
  | none => simp [optBoolTruthy]
  | some b => cases b <;> simp [optBoolTruthy]

lemma truthy_if_eq (o : Option Bool) (x : Int) :
    (if optBoolTruthy o then x else 0) = (if o = some true then x else 0) := by
  rcases o with _ | b
  · simp [optBoolTruthy]
  · cases b <;> simp [optBoolTruthy]

/-- C10.  For a site with at least one page, the crawlability sector adds
34, 33 and 33 exactly for the flags equal to `some true`; the clamp to
`[0, 100]` never bites (the sum is already in range), and a `none`
(not-yet-checked) flag contributes 0 exactly as `some false` does: replacing
`none` by `some false` in any of the three flags leaves `sector_scores`
unchanged. -/
theorem sector_scores_crawlability_flags (site : SiteAudit) (h : site.pages ≠ []) :
    (sector_scores site).rast =
      (if site.robots_ok = some true then 34 else 0) +
      (if site.sitemap_ok = some true then 33 else 0) +
      (if site.llms_ok = some true then 33 else 0) ∧
    0 ≤ (sector_scores site).rast ∧ (sector_scores site).rast ≤ 100 ∧
    sector_scores { site with robots_ok := none } =
      sector_scores { site with robots_ok := some false } ∧
    sector_scores { site with sitemap_ok := none } =
      sector_scores { site with sitemap_ok := some false } ∧
    sector_scores { site with llms_ok := none } =
      sector_scores { site with llms_ok := some false } := by
  have hsum : ∀ a b c : Option Bool,
      (0 : Int) ≤ (if optBoolTruthy a then 34 else 0) + (if optBoolTruthy b then 33 else 0) +
        (if optBoolTruthy c then 33 else 0) ∧
      (if optBoolTruthy a then (34 : Int) else 0) + (if optBoolTruthy b then 33 else 0) +
        (if optBoolTruthy c then 33 else 0) ≤ 100 := by
    intro a b c
    constructor <;> split <;> split <;> split <;> norm_num
  have hrast : (sector_scores site).rast =
      (if optBoolTruthy site.robots_ok then 34 else 0) +
      (if optBoolTruthy site.sitemap_ok then 33 else 0) +
      (if optBoolTruthy site.llms_ok then 33 else 0) := by
    simp only [sector_scores, if_neg h]
    exact clamp_eq_of_le (hsum _ _ _).1 (hsum _ _ _).2
  refine ⟨?_, ?_, ?_, ?_, ?_, ?_⟩
  · rw [hrast, truthy_if_eq, truthy_if_eq, truthy_if_eq]
  · rw [hrast]
    exact (hsum _ _ _).1
  · rw [hrast]
    exact (hsum _ _ _).2
  · simp only [sector_scores]
    rw [if_neg h, if_neg h]
    rfl
  · simp only [sector_scores]
    rw [if_neg h, if_neg h]
    rfl
  · simp only [sector_scores]
    rw [if_neg h, if_neg h]
    rfl

/-- A concrete one-page site with `robots_ok = some true`,
`sitemap_ok = none`, `llms_ok = some false`, used as the C10 witness
input. -/
def witness_site : SiteAudit :=
  { start_url := "http://a.com", host := "a.com",
    pages := [{ url := "http://a.com" }], robots_ok := some true,
    sitemap_ok := none, llms_ok := some false }

/-- C10 witness: the crawlability facts at `witness_site`. -/
theorem sector_scores_crawlability_flags_witness :
    witness_site.pages ≠ [] ∧
    (sector_scores witness_site).rast = (34 + 0 + 0 : Int) ∧
    sector_scores { witness_site with sitemap_ok := none } =
      sector_scores { witness_site with sitemap_ok := some false } := by
  have hne : witness_site.pages ≠ [] := by
    simp [witness_site]
  have h := sector_scores_crawlability_flags witness_site hne
  refine ⟨hne, ?_, h.2.2.2.2.1⟩
  rw [h.1]
  simp [witness_site]

/-! ## Structured data (`extract_schema_types_from_jsonld_blocks`,
source lines 161–204)

`json.loads` is modelled by a strict JSON parser over a tagged value type
(object keys deduplicated last-wins as Python's `dict(pairs)` does), and the
`JSONLD_TYPE_RE` fallback — the pattern
`"@type"\s*:\s*("([^"]+)"|\[([^\]]+)\])` with `re.I`, scanned left to right
non-overlapping — by a direct scanner for that one pattern. -/

/-- A Python JSON value; numbers keep their lexeme (the recursive `walk`
never inspects them). -/
inductive PyJson where
  | null : PyJson
  | bool (b : Bool) : PyJson
  | num (raw : String) : PyJson
  | str (s : String) : PyJson
  | arr (items : List PyJson) : PyJson
  | obj (fields : List (String × PyJson)) : PyJson

/-- JSON whitespace (`json.decoder.WHITESPACE_STR`). -/
def json_ws (c : Char) : Bool := c = ' ' || c = '\t' || c = '\n' || c = '\r'

def skip_ws (l : List Char) : List Char := l.dropWhile json_ws

def lbrace : Char := Char.ofNat 123

def rbrace : Char := Char.ofNat 125

def hex_val (c : Char) : Option Nat :=
  if '0' ≤ c ∧ c ≤ '9' then some (c.toNat - 48)
  else if 'a' ≤ c ∧ c ≤ 'f' then some (c.toNat - 97 + 10)
  else if 'A' ≤ c ∧ c ≤ 'F' then some (c.toNat - 65 + 10)
  else none

/-- JSON string body parser (after the opening quote): strict mode rejects
raw control characters and unknown escapes; `\uXXXX` decodes the code unit
(surrogate pairing, irrelevant to the claims, is not recombined). -/
def parse_jstring : Nat → List Char → List Char → Option (String × List Char)
  | 0, _, _ => none
  | _ + 1, _, [] => none
  | fuel + 1, acc, c :: rest =>
    if c = '"' then some (String.mk acc.reverse, rest)
    else if c = '\\' then
      match rest with
      | [] => none
      | e :: r2 =>
        if e = '"' then parse_jstring fuel ('"' :: acc) r2
        else if e = '\\' then parse_jstring fuel ('\\' :: acc) r2
        else if e = '/' then parse_jstring fuel ('/' :: acc) r2
        else if e = 'b' then parse_jstring fuel (Char.ofNat 8 :: acc) r2
        else if e = 'f' then parse_jstring fuel (Char.ofNat 12 :: acc) r2
        else if e = 'n' then parse_jstring fuel ('\n' :: acc) r2
        else if e = 'r' then parse_jstring fuel ('\r' :: acc) r2
        else if e = 't' then parse_jstring fuel ('\t' :: acc) r2
        else if e = 'u' then
          match r2 with
          | h1 :: h2 :: h3 :: h4 :: r3 =>
            match hex_val h1, hex_val h2, hex_val h3, hex_val h4 with
            | some a, some b, some c2, some d =>
              parse_jstring fuel (Char.ofNat (a * 4096 + b * 256 + c2 * 16 + d) :: acc) r3
            | _, _, _, _ => none
          | _ => none
        else none
    else if c.toNat < 32 then none
    else parse_jstring fuel (c :: acc) rest

def parse_digits (l : List Char) : List Char × List Char :=
  (l.takeWhile Char.isDigit, l.dropWhile Char.isDigit)

/-- JSON integer part: `0` alone, or a nonzero digit followed by digits. -/
def parse_int_digits : List Char → Option (List Char × List Char)
  | [] => none
  | c :: r =>
    if c = '0' then some (['0'], r)
    else if c.isDigit then some (c :: (parse_digits r).1, (parse_digits r).2)
    else none

/-- Optional `(\.\d+)?` group. -/
def parse_frac_part : List Char → List Char × List Char
  | '.' :: r =>
    match parse_digits r with
    | ([], _) => ([], '.' :: r)
    | (ds, r2) => ('.' :: ds, r2)
  | l => ([], l)

/-- Optional `([eE][-+]?\d+)?` group. -/
def parse_exp_part : List Char → List Char × List Char
  | [] => ([], [])
  | c :: r =>
    if c = 'e' ∨ c = 'E' then
      match r with
      | s :: r2 =>
        if s = '+' ∨ s = '-' then
          match parse_digits r2 with
          | ([], _) => ([], c :: r)
          | (ds, r3) => (c :: s :: ds, r3)
        else
          match parse_digits r with
          | ([], _) => ([], c :: r)
          | (ds, r3) => (c :: ds, r3)
      | [] => ([], [c])
    else ([], c :: r)

/-- JSON number (Python `NUMBER_RE`): the consumed lexeme is kept. -/
def parse_number (l : List Char) : Option (PyJson × List Char) :=
  let (sgn, l1) := match l with
    | '-' :: r => ((['-'] : List Char), r)
    | _ => (([] : List Char), l)
  match parse_int_digits l1 with
  | none => none
  | some (ip, l2) =>
    let (fp, l3) := parse_frac_part l2
    let (ep, l4) := parse_exp_part l3
    some (.num (String.mk (sgn ++ ip ++ fp ++ ep)), l4)

/-- `dict(pairs)` key update: an existing key's value is replaced in place,
a new key is appended. -/
def dict_insert (k : String) (v : PyJson) : List (String × PyJson) → List (String × PyJson)
  | [] => [(k, v)]
  | (k2, v2) :: rest => if k2 = k then (k, v) :: rest else (k2, v2) :: dict_insert k v rest

mutual

/-- `json` scanner at a value position (`py_scanstring`/`JSONObject`/
`JSONArray` structure).  The fuel only bounds call depth; `json_loads`
supplies more than the parse can consume. -/
def parse_value : Nat → List Char → Option (PyJson × List Char)
  | 0, _ => none
  | _ + 1, [] => none
  | fuel + 1, c :: rest =>
    if c = lbrace then parse_object fuel rest
    else if c = '[' then parse_array fuel rest
    else if c = '"' then
      match parse_jstring (rest.length + 1) [] rest with
      | some (s, r) => some (.str s, r)
      | none => none
    else if "true".data.isPrefixOf (c :: rest) then some (.bool true, (c :: rest).drop 4)
    else if "false".data.isPrefixOf (c :: rest) then some (.bool false, (c :: rest).drop 5)
    else if "null".data.isPrefixOf (c :: rest) then some (.null, (c :: rest).drop 4)
    else
      match parse_number (c :: rest) with
      | some (v, r) => some (v, r)
      | none =>
        if "NaN".data.isPrefixOf (c :: rest) then some (.num "NaN", (c :: rest).drop 3)
        else if "Infinity".data.isPrefixOf (c :: rest) then
          some (.num "Infinity", (c :: rest).drop 8)
        else if "-Infinity".data.isPrefixOf (c :: rest) then
          some (.num "-Infinity", (c :: rest).drop 9)
        else none

/-- After `'{'`: whitespace, then `'}'` or the first key. -/
def parse_object : Nat → List Char → Option (PyJson × List Char)
  | 0, _ => none
  | fuel + 1, l =>
    match skip_ws l with
    | [] => none
    | c :: r =>
      if c = rbrace then some (.obj [], r)
      else parse_object_items fuel (c :: r) []

/-- `key : value` pairs separated by commas, closed by `'}'`. -/
def parse_object_items : Nat → List Char → List (String × PyJson) →
    Option (PyJson × List Char)
  | 0, _, _ => none
  | fuel + 1, l, acc =>
    match l with
    | '"' :: r =>
      match parse_jstring (r.length + 1) [] r with
      | none => none
      | some (k, r1) =>
        match skip_ws r1 with
        | ':' :: r3 =>
          match parse_value fuel (skip_ws r3) with
          | none => none
          | some (v, r4) =>
            match skip_ws r4 with
            | ',' :: r6 => parse_object_items fuel (skip_ws r6) (dict_insert k v acc)
            | c :: r6 =>
              if c = rbrace then some (.obj (dict_insert k v acc), r6) else none
            | [] => none
        | _ => none
    | _ => none

/-- After `'['`: whitespace, then `']'` or the first item. -/
def parse_array : Nat → List Char → Option (PyJson × List Char)
  | 0, _ => none
  | fuel + 1, l =>
    match skip_ws l with
    | ']' :: r => some (.arr [], r)
    | l1 => parse_array_items fuel l1 []

/-- Array items separated by commas, closed by `']'`. -/
def parse_array_items : Nat → List Char → List PyJson → Option (PyJson × List Char)
  | 0, _, _ => none
  | fuel + 1, l, acc =>
    match parse_value fuel l with
    | none => none
    | some (v, r) =>
      match skip_ws r with
      | ',' :: r2 => parse_array_items fuel (skip_ws r2) (v :: acc)
      | ']' :: r2 => some (.arr (v :: acc).reverse, r2)
      | _ => none

end

/-- `json.loads` (strict): leading/trailing whitespace allowed, anything
else after the value is "Extra data".  Every call chain burns at most three
fuel units per character consumed, so `3·length + 3` fuel never runs out on
an input the real parser accepts. -/
def json_loads (s : String) : Option PyJson :=
  let l := skip_ws s.data
  match parse_value (3 * l.length + 3) l with
  | some (v, rest) => if skip_ws rest = [] then some v else none
  | none => none

/-! ### The recursive `walk` collecting `@type` values -/

/-- `obj.get("@type")` handling: a string value or the string elements of a
list value. -/
def type_values : Option PyJson → List String
  | some (.str s) => [s]
  | some (.arr xs) =>
    xs.filterMap (fun x => match x with | .str s => some s | _ => none)
  | _ => []

/-- `dict.get` on the parsed (already key-deduplicated) field list. -/
def dict_get (k : String) : List (String × PyJson) → Option PyJson
  | [] => none
  | (k2, v) :: rest => if k2 = k then some v else dict_get k rest

mutual

/-- `walk` (source lines 168–181): collect `@type` strings at this node and
recurse into all object values and list items. -/
def walkTypes : PyJson → List String
  | .obj fields => type_values (dict_get "@type" fields) ++ walkTypesFields fields
  | .arr xs => walkTypesList xs
  | _ => []

def walkTypesFields : List (String × PyJson) → List String
  | [] => []
  | (_, v) :: rest => walkTypes v ++ walkTypesFields rest

def walkTypesList : List PyJson → List String
  | [] => []
  | v :: rest => walkTypes v ++ walkTypesList rest

end

/-! ### The `JSONLD_TYPE_RE` fallback -/

/-- `\s` of Python `re` restricted to ASCII. -/
def py_re_space (c : Char) : Bool :=
  c = ' ' || c = '\t' || c = '\n' || c = '\r' || c = Char.ofNat 12 || c = Char.ofNat 11

/-- Case-insensitive literal match (the `re.I` flag on the pattern's
literal part); returns the rest on success. -/
def match_ci : List Char → List Char → Option (List Char)
  | [], l => some l
  | _ :: _, [] => none
  | p :: ps, c :: cs => if p.toLower = c.toLower then match_ci ps cs else none

/-- `re.findall(r'"([^"]+)"', ·)`: non-overlapping quoted nonempty chunks. -/
def find_quoted : Nat → List Char → List String
  | 0, _ => []
  | _ + 1, [] => []
  | fuel + 1, c :: rest =>
    if c = '"' then
      let inner := rest.takeWhile (· ≠ '"')
      match rest.dropWhile (· ≠ '"') with
      | '"' :: l2 =>
        if inner ≠ [] then String.mk inner :: find_quoted fuel l2
        else find_quoted fuel rest
      | _ => find_quoted fuel rest
    else find_quoted fuel rest

/-- One attempt of `JSONLD_TYPE_RE` at the current position:
`"@type"` (case-insensitive), optional whitespace, `':'`, optional
whitespace, then either a nonempty quoted string (group 2) or a nonempty
bracketed chunk (group 3, reduced to its quoted strings). -/
def try_type_match (l : List Char) : Option (List String × List Char) :=
  match match_ci "\"@type\"".data l with
  | none => none
  | some l1 =>
    match l1.dropWhile py_re_space with
    | ':' :: l3 =>
      match l3.dropWhile py_re_space with
      | '"' :: l5 =>
        let inner := l5.takeWhile (· ≠ '"')
        match l5.dropWhile (· ≠ '"') with
        | '"' :: l6 => if inner = [] then none else some ([String.mk inner], l6)
        | _ => none
      | '[' :: l5 =>
        let inner := l5.takeWhile (· ≠ ']')
        match l5.dropWhile (· ≠ ']') with
        | ']' :: l6 => if inner = [] then none else some (find_quoted inner.length inner, l6)
        | _ => none
      | _ => none
    | _ => none

/-- `finditer`: scan left to right, resuming after each match. -/
def scan_types : Nat → List Char → List String
  | 0, _ => []
  | _ + 1, [] => []
  | fuel + 1, c :: rest =>
    match try_type_match (c :: rest) with
    | some (ts, l2) => ts ++ scan_types fuel l2
    | none => scan_types fuel rest

/-- The regex fallback applied to one block. -/
def regex_fallback_types (s : String) : List String := scan_types s.data.length s.data

/-! ### `extract_schema_types_from_jsonld_blocks` -/

/-- The per-block types: strict parse and `walk` when `json.loads`
succeeds, the pattern fallback otherwise. -/
def block_types (raw : String) : List String :=
  match json_loads raw with
  | some v => walkTypes v
  | none => regex_fallback_types raw

/-- One loop iteration's contribution to the `types` set: the stripped
block, skipped when empty. -/
def block_contrib (raw0 : String) : List String :=
  let raw := py_strip raw0
  if raw = "" then [] else block_types raw

/-- Adding one value to the `types` set (kept as an ordered
duplicate-free list). -/
def set_add (acc : List String) (t : String) : List String :=
  if t ∈ acc then acc else acc ++ [t]

/-- The `types` set accumulated over all blocks. -/
def types_accum (blocks : List String) : List String :=
  blocks.foldl (fun acc raw0 => (block_contrib raw0).foldl set_add acc) []

/-- `extract_schema_types_from_jsonld_blocks` (source lines 161–204): the
`types` set accumulated over the blocks, returned sorted
(`sorted(types)`). -/
def extract_schema_types_from_jsonld_blocks (blocks : List String) : List String :=
  List.insertionSort (· ≤ ·) (types_accum blocks)

lemma mem_set_add {acc : List String} {x t : String} :
    t ∈ set_add acc x ↔ t ∈ acc ∨ t = x := by
  rw [set_add]
  by_cases hx : x ∈ acc
  · rw [if_pos hx]
    constructor
    · exact Or.inl
    · rintro (h | rfl)
      · exact h
      · exact hx
  · rw [if_neg hx]
    simp

lemma mem_foldl_set_add (l acc : List String) (t : String) :
    t ∈ l.foldl set_add acc ↔ t ∈ acc ∨ t ∈ l := by
  induction l generalizing acc with
  | nil => simp
  | cons x xs ih =>
    rw [List.foldl_cons, ih, mem_set_add]
    constructor
    · rintro ((h | rfl) | h)
      · exact Or.inl h
      · exact Or.inr (List.mem_cons_self _ _)
      · exact Or.inr (List.mem_cons_of_mem _ h)
    · rintro (h | h)
      · exact Or.inl (Or.inl h)
      · rcases List.mem_cons.mp h with rfl | h2
        · exact Or.inl (Or.inr rfl)
        · exact Or.inr h2

lemma nodup_set_add {acc : List String} (h : acc.Nodup) (x : String) :
    (set_add acc x).Nodup := by
  rw [set_add]
  by_cases hx : x ∈ acc
  · rwa [if_pos hx]
  · rw [if_neg hx]
    rw [List.nodup_append]
    exact ⟨h, List.nodup_singleton x, by simpa using hx⟩

lemma nodup_foldl_set_add (l : List String) {acc : List String} (h : acc.Nodup) :
    (l.foldl set_add acc).Nodup := by
  induction l generalizing acc with
  | nil => exact h
  | cons x xs ih => exact ih (nodup_set_add h x)

lemma mem_types_accum (blocks : List String) (t : String) :
    t ∈ types_accum blocks ↔ ∃ raw ∈ blocks, t ∈ block_contrib raw := by
  have key : ∀ (bs : List String) (acc : List String),
      t ∈ bs.foldl (fun acc raw0 => (block_contrib raw0).foldl set_add acc) acc ↔
        t ∈ acc ∨ ∃ raw ∈ bs, t ∈ block_contrib raw := by
    intro bs
    induction bs with
    | nil => simp
    | cons b rest ih =>
      intro acc
      rw [List.foldl_cons, ih, mem_foldl_set_add]
      constructor
      · rintro ((h | h) | ⟨raw, hraw, ht⟩)
        · exact Or.inl h
        · exact Or.inr ⟨b, List.mem_cons_self _ _, h⟩
        · exact Or.inr ⟨raw, List.mem_cons_of_mem _ hraw, ht⟩
      · rintro (h | ⟨raw, hraw, ht⟩)
        · exact Or.inl (Or.inl h)
        · rcases List.mem_cons.mp hraw with rfl | h2
          · exact Or.inl (Or.inr ht)
          · exact Or.inr ⟨raw, h2, ht⟩
  rw [types_accum, key]
  simp

lemma nodup_types_accum (blocks : List String) : (types_accum blocks).Nodup := by
  rw [types_accum]
  have key : ∀ (bs : List String) (acc : List String), acc.Nodup →
      (bs.foldl (fun acc raw0 => (block_contrib raw0).foldl set_add acc) acc).Nodup := by
    intro bs
    induction bs with
    | nil => exact fun acc h => h
    | cons b rest ih => exact fun acc h => ih _ (nodup_foldl_set_add _ h)
  exact key blocks [] List.nodup_nil

/-- The truncated JSON-LD block of the spec's robustness example. -/
def truncated_org_block : String := "\x7b\"@type\": \"Organization\""

/-- C8.  Per-block robustness of structured-data extraction: membership in
the result is exactly some block's contribution, the contribution of a
block that fails strict JSON parsing is the pattern fallback on that block
alone, the result is always sorted and duplicate-free, and the truncated
block `{"@type": "Organization"` fails strict parsing yet still yields
exactly `["Organization"]`. -/
theorem extract_schema_types_per_block_fallback_sorted :
    (∀ (blocks : List String) (t : String),
      t ∈ extract_schema_types_from_jsonld_blocks blocks ↔
        ∃ raw ∈ blocks, t ∈ block_contrib raw) ∧
    (∀ raw : String, json_loads raw = none → block_types raw = regex_fallback_types raw) ∧
    (∀ blocks : List String,
      (extract_schema_types_from_jsonld_blocks blocks).Sorted (· ≤ ·) ∧
      (extract_schema_types_from_jsonld_blocks blocks).Nodup) ∧
    json_loads truncated_org_block = none ∧
    extract_schema_types_from_jsonld_blocks [truncated_org_block] = ["Organization"] := by
  refine ⟨?_, ?_, ?_, rfl, by decide⟩
  · intro blocks t
    rw [extract_schema_types_from_jsonld_blocks,
      (List.perm_insertionSort (· ≤ ·) (types_accum blocks)).mem_iff, mem_types_accum]
  · intro raw h
    rw [block_types, h]
  · intro blocks
    refine ⟨List.sorted_insertionSort _ _, ?_⟩
    rw [extract_schema_types_from_jsonld_blocks,
      (List.perm_insertionSort (· ≤ ·) (types_accum blocks)).nodup_iff]
    exact nodup_types_accum blocks

/-! ## Page signal extractor (`audit_from_dom`, source lines 312-470)

The BeautifulSoup queries are the markup-parsing collaborator: their
results enter as a `DomSignals` record, and `urljoin` as an opaque
function.  The link-classification loop, the nofollow count and the
finding rules are modelled from the source.  The finding strings are the
source file's literals, byte for byte. -/

def msg_win_title : String := "‚úÖ T√≠tulo da p√°gina definido (importante para o Google e para o clique)."

def msg_issue_title : String := "‚ùå Falta t√≠tulo da p√°gina (o Google pode exibir um t√≠tulo ruim nos resultados)."

def msg_win_desc : String := "‚úÖ Descri√ß√£o (meta description) presente (ajuda no clique/CTR)."

def msg_issue_desc : String := "‚ùå Falta descri√ß√£o (meta description)."

def msg_win_canonical : String := "‚úÖ URL can√¥nica configurada (evita duplicidade)."

def msg_issue_canonical : String := "‚ö†Ô∏è Falta URL can√¥nica (pode gerar p√°ginas duplicadas)."

def msg_win_h1 : String := "‚úÖ Estrutura com 1 H1 (bom para hierarquia e entendimento)."

def msg_issue_h1_none : String := "‚ùå P√°gina sem H1 (dificulta entendimento do tema principal)."

def msg_issue_h1_many : String := "‚ö†Ô∏è Mais de um H1 (o ideal √© 1 por p√°gina)."

def msg_win_schema : String := "‚úÖ Dados estruturados (Schema.org) encontrados (ajuda o Google a entender a empresa/servi√ßo)."

def msg_issue_schema : String := "‚ùå Dados estruturados (Schema.org / JSON-LD) n√£o encontrados."

def msg_issue_internal_zero : String := "‚ö†Ô∏è Poucos ou nenhum link interno detectado (pode dificultar navega√ß√£o e rastreamento)."

def msg_issue_internal_few : String := "‚ö†Ô∏è Poucos links internos detectados ‚Äî aumentar links para p√°ginas/√°reas importantes pode ajudar rastreio."

def msg_issue_alt : String := "‚ö†Ô∏è Existem imagens sem texto alternativo (ALT) ‚Äî impacta acessibilidade e SEO de imagens."

def msg_win_alt : String := "‚úÖ Imagens com ALT OK (boa pr√°tica de acessibilidade/SEO)."

def msg_win_social : String := "‚úÖ Metadados sociais (OpenGraph/Twitter) presentes (melhor compartilhamento)."

def msg_issue_social : String := "‚ö†Ô∏è Metadados sociais (OpenGraph/Twitter) n√£o encontrados (compartilhamento pode ficar gen√©rico)."

def msg_issue_words : String := "‚ö†Ô∏è Conte√∫do textual curto (pode n√£o responder bem a inten√ß√£o de busca)."

def msg_issue_noindex : String := "‚ùå A p√°gina est√° marcando NOINDEX (pode n√£o aparecer no Google)."

def msg_load_fail : String := "‚ö†Ô∏è N√£o foi poss√≠vel carregar a p√°gina no modo navegador (verificar disponibilidade)."

/-- What the soup-based field extraction of `audit_from_dom` yields for one
page: each `Option` is `none` when the tag/attribute is absent, exactly the
truthiness checks the source performs. -/
structure DomSignals where
  lang : Option String := none
  viewport : Bool := false
  title : Option String := none
  meta_description : Option String := none
  meta_robots : Option String := none
  canonical_href : Option String := none
  og : List (String × String) := []
  twitter : List (String × String) := []
  h1 : List String := []
  h2 : List String := []
  h3 : List String := []
  visible_text : String := ""
  img_alts : List (Option String) := []
deriving DecidableEq

/-- `if tag_value: field = tag_value.strip()` — empty/absent attributes
leave the field at its `""` default. -/
def opt_attr : Option String → String
  | some s => if s = "" then "" else py_strip s
  | none => ""

/-- The canonical URL: `urljoin(final_url, href.strip())` when the link has
a truthy href. -/
def canonical_of (urljoin : String → String → String) (final_url : String) :
    Option String → String
  | some s => if s = "" then "" else urljoin final_url (py_strip s)
  | none => ""

/-- `href.startswith(("mailto:", "tel:", "javascript:"))`. -/
def skippable_href (h : String) : Bool :=
  py_startswith h "mailto:" || py_startswith h "tel:" || py_startswith h "javascript:"

/-- An `img` with an absent or whitespace-only `alt`. -/
def img_missing_alt : Option String → Bool
  | none => true
  | some a => py_strip a = ""

/-- One iteration of the link-classification loop (source lines 381–404);
the accumulator is `(internal, external, anchors)`. -/
def classify_step (urljoin : String → String → String) (final_url : String)
    (acc : Nat × Nat × Nat) (href0 : String) : Nat × Nat × Nat :=
  let href := py_strip href0
  if href = "" then acc
  else if skippable_href href then acc
  else if is_anchor_link href then (acc.1 + 1, acc.2.1, acc.2.2 + 1)
  else
    let absu := norm_url (urljoin final_url href)
    if py_startswith absu "http" && same_host final_url absu then
      (acc.1 + 1, acc.2.1, acc.2.2)
    else if py_startswith absu "http" = false then (acc.1 + 1, acc.2.1, acc.2.2)
    else (acc.1, acc.2.1 + 1, acc.2.2)

/-- The link-classification loop over all hrefs. -/
def classify_links (urljoin : String → String → String) (final_url : String)
    (hrefs : List String) : Nat × Nat × Nat :=
  hrefs.foldl (classify_step urljoin final_url) (0, 0, 0)

/-- One iteration of the nofollow pass (source lines 406–413): the raw
href's truthiness is tested before stripping. -/
def nofollow_step (acc : Nat) (pr : String × List String) : Nat :=
  if pr.1 = "" then acc
  else if skippable_href (py_strip pr.1) then acc
  else if pr.2.contains "nofollow" then acc + 1
  else acc

def count_nofollow (link_rel_data : List (String × List String)) : Nat :=
  link_rel_data.foldl nofollow_step 0

/-- The issue findings of `audit_from_dom` (source lines 421–468), in rule
order; every rule is independent. -/
def page_issues (p : PageAudit) : List String :=
  (if p.title = "" then [msg_issue_title] else [])
  ++ (if p.meta_description = "" then [msg_issue_desc] else [])
  ++ (if p.canonical = "" then [msg_issue_canonical] else [])
  ++ (if p.h1.length = 1 then []
      else if p.h1.length = 0 then [msg_issue_h1_none] else [msg_issue_h1_many])
  ++ (if p.schema_types = [] then [msg_issue_schema] else [])
  ++ (if p.internal_links = 0 then [msg_issue_internal_zero]
      else if p.internal_links < 3 then [msg_issue_internal_few] else [])
  ++ (if 0 < p.images ∧ 0 < p.images_missing_alt then [msg_issue_alt] else [])
  ++ (if p.og = [] ∧ p.twitter = [] then [msg_issue_social] else [])
  ++ (if p.word_count < 80 then [msg_issue_words] else [])
  ++ (if p.meta_robots ≠ "" ∧ py_contains_sub (py_lower p.meta_robots) "noindex"
      then [msg_issue_noindex] else [])

/-- The positive findings of `audit_from_dom`, in rule order. -/
def page_wins (p : PageAudit) : List String :=
  (if p.title ≠ "" then [msg_win_title] else [])
  ++ (if p.meta_description ≠ "" then [msg_win_desc] else [])
  ++ (if p.canonical ≠ "" then [msg_win_canonical] else [])
  ++ (if p.h1.length = 1 then [msg_win_h1] else [])
  ++ (if p.schema_types ≠ [] then [msg_win_schema] else [])
  ++ (if ¬ (0 < p.images ∧ 0 < p.images_missing_alt) then [msg_win_alt] else [])
  ++ (if p.og ≠ [] ∨ p.twitter ≠ [] then [msg_win_social] else [])

/-- The `PageAudit` record `audit_from_dom` assembles before the finding
rules run (source lines 312–418). -/
def audit_base (urljoin : String → String → String) (url final_url : String)
    (status : Int) (load_time_sec : ℚ) (sig : DomSignals) (jsonld_blocks : List String)
    (hrefs : List String) (link_rel_data : List (String × List String)) : PageAudit :=
  { url := url, final_url := final_url, status := some status,
    load_time_sec := load_time_sec,
    lang := opt_attr sig.lang, viewport := sig.viewport,
    title := opt_attr sig.title,
    meta_description := opt_attr sig.meta_description,
    meta_robots := opt_attr sig.meta_robots,
    canonical := canonical_of urljoin final_url sig.canonical_href,
    og := sig.og, twitter := sig.twitter,
    h1 := sig.h1, h2 := sig.h2, h3 := sig.h3,
    word_count := count_words sig.visible_text,
    images := sig.img_alts.length,
    images_missing_alt := (sig.img_alts.filter img_missing_alt).length,
    schema_types := extract_schema_types_from_jsonld_blocks jsonld_blocks,
    internal_links := (classify_links urljoin final_url hrefs).1,
    external_links := (classify_links urljoin final_url hrefs).2.1,
    anchor_links := (classify_links urljoin final_url hrefs).2.2,
    nofollow_links := count_nofollow link_rel_data }

/-- `audit_from_dom` (source lines 312–470): the assembled record plus the
findings the rules derive from it. -/
def audit_from_dom (urljoin : String → String → String) (url final_url : String)
    (status : Int) (load_time_sec : ℚ) (sig : DomSignals) (jsonld_blocks : List String)
    (hrefs : List String) (link_rel_data : List (String × List String)) : PageAudit :=
  { audit_base urljoin url final_url status load_time_sec sig jsonld_blocks hrefs
      link_rel_data with
    issues := page_issues (audit_base urljoin url final_url status load_time_sec sig
      jsonld_blocks hrefs link_rel_data),
    wins := page_wins (audit_base urljoin url final_url status load_time_sec sig
      jsonld_blocks hrefs link_rel_data) }

/-! ### Link-count characterisation (C3) -/

/-- An href the classification loop counts at all: nonempty after
stripping, not a skippable scheme. -/
def href_counted (h : String) : Prop :=
  py_strip h ≠ "" ∧ skippable_href (py_strip h) = false

instance (h : String) : Decidable (href_counted h) := by
  unfold href_counted
  infer_instance

/-- An href counted as an anchor (and, by the same branch, as internal). -/
def href_anchor (h : String) : Prop :=
  href_counted h ∧ is_anchor_link (py_strip h) = true

instance (h : String) : Decidable (href_anchor h) := by
  unfold href_anchor
  infer_instance

/-- An href counted as internal: the anchor branch, or a resolved URL that
is same-host or not absolute-http. -/
def href_internal (urljoin : String → String → String) (final_url h : String) : Prop :=
  href_counted h ∧ (is_anchor_link (py_strip h) = true ∨
    py_startswith (norm_url (urljoin final_url (py_strip h))) "http" = false ∨
    same_host final_url (norm_url (urljoin final_url (py_strip h))) = true)

instance (urljoin : String → String → String) (final_url h : String) :
    Decidable (href_internal urljoin final_url h) := by
  unfold href_internal
  infer_instance

/-- An href counted as external: counted, not an anchor, resolving to an
absolute http(s) URL on another host. -/
def href_external (urljoin : String → String → String) (final_url h : String) : Prop :=
  href_counted h ∧ is_anchor_link (py_strip h) = false ∧
    py_startswith (norm_url (urljoin final_url (py_strip h))) "http" = true ∧
    same_host final_url (norm_url (urljoin final_url (py_strip h))) = false

instance (urljoin : String → String → String) (final_url h : String) :
    Decidable (href_external urljoin final_url h) := by
  unfold href_external
  infer_instance

lemma classify_step_eq (urljoin : String → String → String) (final_url : String)
    (acc : Nat × Nat × Nat) (h : String) :
    classify_step urljoin final_url acc h =
      (acc.1 + (if href_internal urljoin final_url h then 1 else 0),
       acc.2.1 + (if href_external urljoin final_url h then 1 else 0),
       acc.2.2 + (if href_anchor h then 1 else 0)) := by
  unfold classify_step href_internal href_external href_anchor href_counted
  by_cases h1 : py_strip h = ""
  · simp [h1]
  · by_cases h2 : skippable_href (py_strip h) = true
    · simp [h1, h2]
    · rw [Bool.not_eq_true] at h2
      by_cases h3 : is_anchor_link (py_strip h) = true
      · simp [h1, h2, h3]
      · rw [Bool.not_eq_true] at h3
        by_cases h4 : py_startswith (norm_url (urljoin final_url (py_strip h))) "http" = true
        · by_cases h5 :
            same_host final_url (norm_url (urljoin final_url (py_strip h))) = true
          · simp [h1, h2, h3, h4, h5]
          · rw [Bool.not_eq_true] at h5
            simp [h1, h2, h3, h4, h5]
        · rw [Bool.not_eq_true] at h4
          simp [h1, h2, h3, h4]

lemma classify_fold_spec (urljoin : String → String → String) (final_url : String)
    (hrefs : List String) : ∀ acc : Nat × Nat × Nat,
    hrefs.foldl (classify_step urljoin final_url) acc =
      (acc.1 + hrefs.countP (fun h => decide (href_internal urljoin final_url h)),
       acc.2.1 + hrefs.countP (fun h => decide (href_external urljoin final_url h)),
       acc.2.2 + hrefs.countP (fun h => decide (href_anchor h))) := by
  induction hrefs with
  | nil => intro acc; simp
  | cons h rest ih =>
    intro acc
    rw [List.foldl_cons, classify_step_eq, ih]
    simp only [List.countP_cons, decide_eq_true_eq]
    refine Prod.ext ?_ (Prod.ext ?_ ?_) <;> simp <;> split <;> omega

lemma countP_le_of_imp {l : List String} {p q : String → Bool}
    (himp : ∀ a, p a = true → q a = true) : l.countP p ≤ l.countP q := by
  induction l with
  | nil => simp
  | cons x xs ih =>
    rw [List.countP_cons, List.countP_cons]
    by_cases hx : p x = true
    · rw [if_pos hx, if_pos (himp x hx)]
      omega
    · rw [if_neg hx]
      split <;> omega

/-- C3.  In every `PageAudit` the extractor builds, the anchor counter is
exactly the number of counted anchor hrefs, each of which is also counted
internal (anchors are never classified external: `href_anchor` and
`href_external` are disjoint), so
`anchor_links ≤ internal_links` and
`internal_links + external_links ≥ anchor_links`. -/
theorem audit_from_dom_anchor_internal_external (urljoin : String → String → String)
    (url final_url : String) (status : Int) (load_time_sec : ℚ) (sig : DomSignals)
    (jsonld_blocks : List String) (hrefs : List String)
    (link_rel_data : List (String × List String)) :
    (audit_from_dom urljoin url final_url status load_time_sec sig jsonld_blocks
        hrefs link_rel_data).anchor_links =
      hrefs.countP (fun h => decide (href_anchor h)) ∧
    (audit_from_dom urljoin url final_url status load_time_sec sig jsonld_blocks
        hrefs link_rel_data).internal_links =
      hrefs.countP (fun h => decide (href_internal urljoin final_url h)) ∧
    (audit_from_dom urljoin url final_url status load_time_sec sig jsonld_blocks
        hrefs link_rel_data).external_links =
      hrefs.countP (fun h => decide (href_external urljoin final_url h)) ∧
    (∀ h : String, href_anchor h → ¬ href_external urljoin final_url h) ∧
    (audit_from_dom urljoin url final_url status load_time_sec sig jsonld_blocks
        hrefs link_rel_data).anchor_links ≤
      (audit_from_dom urljoin url final_url status load_time_sec sig jsonld_blocks
        hrefs link_rel_data).internal_links ∧
    (audit_from_dom urljoin url final_url status load_time_sec sig jsonld_blocks
        hrefs link_rel_data).internal_links +
      (audit_from_dom urljoin url final_url status load_time_sec sig jsonld_blocks
        hrefs link_rel_data).external_links ≥
      (audit_from_dom urljoin url final_url status load_time_sec sig jsonld_blocks
        hrefs link_rel_data).anchor_links := by
  have hc : classify_links urljoin final_url hrefs =
      (hrefs.countP (fun h => decide (href_internal urljoin final_url h)),
       hrefs.countP (fun h => decide (href_external urljoin final_url h)),
       hrefs.countP (fun h => decide (href_anchor h))) := by
    rw [classify_links, classify_fold_spec]
    simp
  have ha : (audit_from_dom urljoin url final_url status load_time_sec sig jsonld_blocks
      hrefs link_rel_data).anchor_links = (classify_links urljoin final_url hrefs).2.2 := rfl
  have hi : (audit_from_dom urljoin url final_url status load_time_sec sig jsonld_blocks
      hrefs link_rel_data).internal_links = (classify_links urljoin final_url hrefs).1 := rfl
  have he : (audit_from_dom urljoin url final_url status load_time_sec sig jsonld_blocks
      hrefs link_rel_data).external_links = (classify_links urljoin final_url hrefs).2.1 := rfl
  have hdisj : ∀ h : String, href_anchor h → ¬ href_external urljoin final_url h := by
    intro h hanchor hext
    obtain ⟨-, ha2⟩ := hanchor
    obtain ⟨-, he2, -, -⟩ := hext
    rw [ha2] at he2
    exact absurd he2 (by decide)
  have hmono : hrefs.countP (fun h => decide (href_anchor h)) ≤
      hrefs.countP (fun h => decide (href_internal urljoin final_url h)) := by
    apply countP_le_of_imp
    intro a hpa
    rw [decide_eq_true_eq] at hpa ⊢
    exact ⟨hpa.1, Or.inl hpa.2⟩
  refine ⟨?_, ?_, ?_, hdisj, ?_, ?_⟩
  · rw [ha, hc]
  · rw [hi, hc]
  · rw [he, hc]
  · rw [ha, hi, hc]
    exact hmono
  · rw [ha, hi, he, hc]
    simp only []
    omega

/-! ### Scenario 2 of the spec (C9) -/

/-- The C9 counterexample page: all eight listed properties hold (no title,
no description, no canonical, zero H1, 50 words, no structured data, 0
internal links, status 0) with the unconstrained fields at their defaults
(`viewport = false`, `load_time_sec = 0`). -/
def c9_page : PageAudit := { url := "u", status := some 0, word_count := 50 }

/-- C9 counterexample.  A page satisfying all eight properties of the
claim has `basics_perf = 6`, not 0: a status-0 page still collects the
load-time points (and a viewport meta alone would likewise make
`structure = 5`). -/
theorem scenario2_basics_perf_not_zero_cex :
    (c9_page.title = "" ∧ c9_page.meta_description = "" ∧ c9_page.canonical = "" ∧
     c9_page.h1 = [] ∧ c9_page.word_count = 50 ∧ c9_page.schema_types = [] ∧
     c9_page.internal_links = 0 ∧ c9_page.status = some 0) ∧
    (score_page c9_page).2.basics_perf = 6 ∧
    ¬ (score_page c9_page).2.basics_perf = 0 ∧
    (score_page { c9_page with viewport := true }).2.struct = 5 := by
  refine ⟨⟨rfl, rfl, rfl, rfl, rfl, rfl, rfl, rfl⟩, by decide, by decide, by decide⟩

/-- C9 (amended).  For any page with no title, no description, no
canonical, zero H1, 50 words, no structured data, 0 internal links, status
0, no viewport meta and an empty robots directive: `meta = 0`,
`structure = 0`, `schema = 0`, and `basics_perf` equals the load-time
sub-score alone (6 / 4 / 2 / 0 by the `<2s`, `<4s`, `<6s` thresholds), so
it is 0 exactly when the load time is at least 6 seconds; and whenever the
extractor sees no title tag and no H1 headings, its issue list contains the
missing-title finding and the missing-H1 finding. -/
theorem scenario2_category_scores_and_findings :
    (∀ p : PageAudit, p.title = "" → p.meta_description = "" → p.canonical = "" →
      p.h1 = [] → p.word_count = 50 → p.schema_types = [] → p.internal_links = 0 →
      p.status = some 0 → p.viewport = false → p.meta_robots = "" →
      (score_page p).2.meta = 0 ∧ (score_page p).2.struct = 0 ∧
      (score_page p).2.schema = 0 ∧
      (score_page p).2.basics_perf =
        (if p.load_time_sec < 2 then 6 else if p.load_time_sec < 4 then 4
         else if p.load_time_sec < 6 then 2 else 0) ∧
      ((score_page p).2.basics_perf = 0 ↔ 6 ≤ p.load_time_sec)) ∧
    (∀ (urljoin : String → String → String) (url final_url : String) (status : Int)
      (load_time_sec : ℚ) (sig : DomSignals) (jsonld_blocks : List String)
      (hrefs : List String) (link_rel_data : List (String × List String)),
      sig.title = none → sig.h1 = [] →
      msg_issue_title ∈ (audit_from_dom urljoin url final_url status load_time_sec sig
        jsonld_blocks hrefs link_rel_data).issues ∧
      msg_issue_h1_none ∈ (audit_from_dom urljoin url final_url status load_time_sec sig
        jsonld_blocks hrefs link_rel_data).issues) := by
  constructor
  · intro p htitle hdesc hcanon hh1 hwords hschema hint hstatus hvp hrobots
    have hbp : basics_perf_score p =
        (if p.load_time_sec < 2 then 6 else if p.load_time_sec < 4 then 4
         else if p.load_time_sec < 6 then 2 else 0) := by
      have hs : ¬ ((0 : Int) ≠ 0 ∧ 200 ≤ (0 : Int) ∧ (0 : Int) < 300) :=
        fun hcc => hcc.1 rfl
      have hr : ¬ (("" : String) ≠ "" ∧ py_contains_sub (py_lower "") "noindex" = true) :=
        fun hcc => hcc.1 rfl
      rw [basics_perf_score, hstatus, hrobots]
      simp only [decide_eq_true_eq]
      rw [if_neg hs, if_neg hr, zero_add, zero_add]
      split
      · exact clamp_eq_of_le (by norm_num) (by norm_num)
      · split
        · exact clamp_eq_of_le (by norm_num) (by norm_num)
        · split
          · exact clamp_eq_of_le (by norm_num) (by norm_num)
          · exact clamp_eq_of_le (by norm_num) (by norm_num)
    refine ⟨?_, ?_, ?_, hbp, ?_⟩
    · show meta_score p = 0
      rw [meta_score, htitle, hdesc, hcanon]
      simp
      rfl
    · show struct_score p = 0
      rw [struct_score, hh1, hvp]
      simp
      rfl
    · show schema_score p = 0
      rw [schema_score, hschema]
      simp
      rfl
    · show basics_perf_score p = 0 ↔ 6 ≤ p.load_time_sec
      rw [hbp]
      split
      · rename_i hlt
        constructor
        · intro h6
          exact absurd h6 (by norm_num)
        · intro h6
          linarith
      · split
        · rename_i hlt hlt2
          constructor
          · intro h4
            exact absurd h4 (by norm_num)
          · intro h6
            linarith
        · split
          · rename_i hlt hlt2 hlt3
            constructor
            · intro h2
              exact absurd h2 (by norm_num)
            · intro h6
              linarith
          · rename_i hlt hlt2 hlt3
            constructor
            · intro _
              push_neg at hlt3
              linarith
            · intro _
              rfl
  · intro urljoin url final_url status load_time_sec sig jsonld_blocks hrefs
      link_rel_data htitle hh1
    have hiss : (audit_from_dom urljoin url final_url status load_time_sec sig
        jsonld_blocks hrefs link_rel_data).issues =
        page_issues (audit_base urljoin url final_url status load_time_sec sig
          jsonld_blocks hrefs link_rel_data) := rfl
    have ht : (audit_base urljoin url final_url status load_time_sec sig
        jsonld_blocks hrefs link_rel_data).title = "" := by
      show opt_attr sig.title = ""
      rw [htitle]
      rfl
    have hh : (audit_base urljoin url final_url status load_time_sec sig
        jsonld_blocks hrefs link_rel_data).h1 = ([] : List String) := by
      show sig.h1 = ([] : List String)
      exact hh1
    rw [hiss, page_issues, ht, hh]
    constructor
    · rw [if_pos rfl]
      exact List.mem_append_left _ (List.mem_append_left _ (List.mem_append_left _
        (List.mem_append_left _ (List.mem_append_left _ (List.mem_append_left _
        (List.mem_append_left _ (List.mem_append_left _ (List.mem_append_left _
        (List.mem_singleton_self _)))))))))
    · rw [if_pos rfl]
      have hmem : msg_issue_h1_none ∈
          (if ([] : List String).length = 1 then ([] : List String)
           else if ([] : List String).length = 0 then [msg_issue_h1_none]
           else [msg_issue_h1_many]) := by
        rw [if_neg (by simp), if_pos (by simp)]
        exact List.mem_singleton_self _
      exact List.mem_append_left _ (List.mem_append_left _ (List.mem_append_left _
        (List.mem_append_left _ (List.mem_append_left _ (List.mem_append_left _
        (List.mem_append_right _ hmem))))))


/-! ## Crawl frontier / orchestrator (`discover_internal_links`,
`run_audit`, source lines 629–695)

The rendering layer (`fetch_page_dom`) and the endpoint probe
(`check_endpoint_ok`) are the render collaborator; a `CrawlEnv` carries
them (and `urljoin`) as opaque functions.  `fetch = none` models a raised
exception. -/

/-- What one successful `fetch_page_dom` returns, plus the hrefs the
orchestrator's own soup re-parse of the html finds for link discovery. -/
structure RenderResult where
  status : Int
  final_url : String
  load_time_sec : ℚ
  sig : DomSignals
  jsonld_blocks : List String
  hrefs : List String
  link_rel_data : List (String × List String)
  soup_hrefs : List String

/-- The external collaborators of `run_audit`. -/
structure CrawlEnv where
  urljoin : String → String → String
  fetch : String → Option RenderResult
  probe : String → Bool

/-- The skip test of `discover_internal_links` (source line 633):
empty, `mailto:`, `tel:`, `javascript:` or `'#'`-prefixed hrefs. -/
def discover_skip (href : String) : Bool :=
  href = "" || py_startswith href "mailto:" || py_startswith href "tel:" ||
    py_startswith href "javascript:" || py_startswith href "#"

/-- One non-skipped href's effect on the collected links: append the
normalised absolute URL when it is same-host. -/
def discover_append (urljoin : String → String → String) (final_url : String)
    (links : List String) (href : String) : List String :=
  if same_host final_url (norm_url (urljoin final_url href)) then
    links ++ [norm_url (urljoin final_url href)]
  else links

/-- The loop of `discover_internal_links`: append the normalised absolute
URL when same-host, stop once `max_new` links are collected (the bound is
checked after each non-skipped href). -/
def discover_go (urljoin : String → String → String) (final_url : String) (max_new : Nat) :
    List String → List String → List String
  | [], links => links
  | h :: rest, links =>
    let href := py_strip h
    if discover_skip href then discover_go urljoin final_url max_new rest links
    else if max_new ≤ (discover_append urljoin final_url links href).length then
      discover_append urljoin final_url links href
    else discover_go urljoin final_url max_new rest (discover_append urljoin final_url links href)

/-- `discover_internal_links` (source lines 629–640). -/
def discover_internal_links (urljoin : String → String → String) (final_url : String)
    (soup_hrefs : List String) (max_new : Nat) : List String :=
  discover_go urljoin final_url max_new soup_hrefs []

/-- The degraded record `run_audit` appends on a fetch failure (source
lines 678–681): status 0, zero load time, one load-failure issue. -/
def fail_record (url : String) : PageAudit :=
  { url := url, final_url := url, status := some 0, load_time_sec := 0,
    issues := [msg_load_fail] }

/-- The enqueue loop of `run_audit` (source lines 689–691): a discovered
link is appended only when not yet visited, not already queued and on the
start host. -/
def enqueue_links (start_url : String) (visited : List String) :
    List String → List String → List String
  | q, [] => q
  | q, lk :: rest =>
    if lk ∉ visited ∧ lk ∉ q ∧ same_host start_url lk = true then
      enqueue_links start_url visited (q ++ [lk]) rest
    else enqueue_links start_url visited q rest

/-- The frontier state of one run: the pending queue, the visited set
(a Python `set`, modelled as a list tested by membership) and the pages in
crawl order. -/
structure CrawlState where
  queue : List String
  visited : List String
  pages : List PageAudit

/-- The `while queue and len(site.pages) < max_pages` loop of `run_audit`
(source lines 667–691).  Termination: a skipped URL shortens the queue,
and any other iteration appends a page while the budget check bounds the
page count, so `(max_pages - pages, queue length)` decreases
lexicographically — the run always completes. -/
def crawl_loop (env : CrawlEnv) (start_url : String) (max_pages : Nat) :
    List String → List String → List PageAudit → CrawlState
  | [], visited, pages => ⟨[], visited, pages⟩
  | url0 :: rest, visited, pages =>
    if _h : pages.length < max_pages then
      if norm_url url0 ∈ visited then crawl_loop env start_url max_pages rest visited pages
      else
        match env.fetch (norm_url url0) with
        | none =>
          crawl_loop env start_url max_pages rest (norm_url url0 :: visited)
            (pages ++ [fail_record (norm_url url0)])
        | some r =>
          crawl_loop env start_url max_pages
            (enqueue_links start_url (norm_url url0 :: visited) rest
              (discover_internal_links env.urljoin r.final_url r.soup_hrefs 80))
            (norm_url url0 :: visited)
            (pages ++ [audit_from_dom env.urljoin (norm_url url0) r.final_url r.status
              r.load_time_sec r.sig r.jsonld_blocks r.hrefs r.link_rel_data])
    else ⟨url0 :: rest, visited, pages⟩
termination_by q _v p => (max_pages - p.length, q.length)
decreasing_by
  · apply Prod.Lex.right
    simp
  · apply Prod.Lex.left
    simp only [List.length_append, List.length_cons, List.length_nil]
    omega
  · apply Prod.Lex.left
    simp only [List.length_append, List.length_cons, List.length_nil]
    omega

/-- `run_audit` (source lines 643–695): normalise the start URL, build the
endpoint URLs, probe them, then crawl from a fresh frontier (the visited
set starts empty — deduplication is in-run only). -/
def run_audit (env : CrawlEnv) (start_url0 : String) (max_pages : Nat) : SiteAudit :=
  let start_url := norm_url start_url0
  let h := host start_url
  let base := py_scheme start_url ++ "://" ++ h
  let robots_url := base ++ "/robots.txt"
  let sitemap_url := base ++ "/sitemap.xml"
  let llms_url := base ++ "/llms.txt"
  let final := crawl_loop env start_url max_pages [start_url] [] []
  { start_url := start_url, host := h, pages := final.pages,
    robots_url := robots_url, sitemap_url := sitemap_url, llms_url := llms_url,
    robots_ok := some (env.probe robots_url),
    sitemap_ok := some (env.probe sitemap_url),
    llms_ok := some (env.probe llms_url) }


/-! ### Frontier deduplication (C2) -/

lemma mem_enqueue_links (start_url : String) (visited : List String) :
    ∀ (links q : List String) (u : String), u ∈ enqueue_links start_url visited q links →
      u ∈ q ∨ (u ∈ links ∧ u ∉ visited ∧ same_host start_url u = true) := by
  intro links
  induction links with
  | nil =>
    intro q u hu
    exact Or.inl hu
  | cons lk rest ih =>
    intro q u hu
    rw [enqueue_links] at hu
    by_cases hcond : lk ∉ visited ∧ lk ∉ q ∧ same_host start_url lk = true
    · rw [if_pos hcond] at hu
      rcases ih (q ++ [lk]) u hu with hq | ⟨h1, h2, h3⟩
      · rcases List.mem_append.mp hq with hq2 | hone
        · exact Or.inl hq2
        · have : u = lk := List.mem_singleton.mp hone
          subst this
          exact Or.inr ⟨List.mem_cons_self _ _, hcond.1, hcond.2.2⟩
      · exact Or.inr ⟨List.mem_cons_of_mem _ h1, h2, h3⟩
    · rw [if_neg hcond] at hu
      rcases ih q u hu with hq | ⟨h1, h2, h3⟩
      · exact Or.inl hq
      · exact Or.inr ⟨List.mem_cons_of_mem _ h1, h2, h3⟩

lemma enqueue_links_nodup (start_url : String) (visited : List String) :
    ∀ (links q : List String), q.Nodup → (enqueue_links start_url visited q links).Nodup := by
  intro links
  induction links with
  | nil =>
    intro q hq
    exact hq
  | cons lk rest ih =>
    intro q hq
    rw [enqueue_links]
    by_cases hcond : lk ∉ visited ∧ lk ∉ q ∧ same_host start_url lk = true
    · rw [if_pos hcond]
      refine ih (q ++ [lk]) ?_
      rw [List.nodup_append]
      refine ⟨hq, List.nodup_singleton lk, ?_⟩
      intro a ha hb
      rw [List.mem_singleton] at hb
      subst hb
      exact hcond.2.1 ha
    · rw [if_neg hcond]
      exact ih q hq

lemma crawl_loop_invariant (env : CrawlEnv) (start_url : String) (max_pages : Nat) :
    ∀ q v p, (p.map PageAudit.url).Nodup → (∀ r ∈ p, r.url ∈ v) → q.Nodup →
      (((crawl_loop env start_url max_pages q v p).pages.map PageAudit.url).Nodup ∧
       (∀ r ∈ (crawl_loop env start_url max_pages q v p).pages,
         r.url ∈ (crawl_loop env start_url max_pages q v p).visited) ∧
       (crawl_loop env start_url max_pages q v p).queue.Nodup) := by
  intro q v p
  induction q, v, p using crawl_loop.induct env start_url max_pages with
  | case1 visited pages =>
    intro h1 h2 h3
    rw [crawl_loop]
    exact ⟨h1, h2, h3⟩
  | case2 url0 rest visited pages hlen hvis ih =>
    intro h1 h2 h3
    rw [crawl_loop, dif_pos hlen, if_pos hvis]
    exact ih h1 h2 (List.Nodup.of_cons h3)
  | case3 url0 rest visited pages hlen hvis heq ih =>
    intro h1 h2 h3
    rw [crawl_loop, dif_pos hlen, if_neg hvis, heq]
    refine ih ?_ ?_ (List.Nodup.of_cons h3)
    · rw [List.map_append]
      rw [List.nodup_append]
      refine ⟨h1, by simp, ?_⟩
      intro a ha hb
      simp only [List.map_cons, List.map_nil, List.mem_singleton] at hb
      subst hb
      obtain ⟨r, hr, hra⟩ := List.mem_map.mp ha
      have hv2 : (fail_record (norm_url url0)).url ∈ visited := hra ▸ h2 r hr
      exact hvis hv2
    · intro r hr
      rcases List.mem_append.mp hr with hold | hnew
      · exact List.mem_cons_of_mem _ (h2 r hold)
      · rw [List.mem_singleton] at hnew
        subst hnew
        exact List.mem_cons_self _ _
  | case4 url0 rest visited pages hlen hvis r heq ih =>
    intro h1 h2 h3
    rw [crawl_loop, dif_pos hlen, if_neg hvis, heq]
    refine ih ?_ ?_ ?_
    · rw [List.map_append]
      rw [List.nodup_append]
      refine ⟨h1, by simp, ?_⟩
      intro a ha hb
      simp only [List.map_cons, List.map_nil, List.mem_singleton] at hb
      subst hb
      obtain ⟨r2, hr2, hra⟩ := List.mem_map.mp ha
      have hv2 : (audit_from_dom env.urljoin (norm_url url0) r.final_url r.status
          r.load_time_sec r.sig r.jsonld_blocks r.hrefs r.link_rel_data).url ∈ visited :=
        hra ▸ h2 r2 hr2
      exact hvis hv2
    · intro r2 hr2
      rcases List.mem_append.mp hr2 with hold | hnew
      · exact List.mem_cons_of_mem _ (h2 r2 hold)
      · rw [List.mem_singleton] at hnew
        subst hnew
        exact List.mem_cons_self _ _
    · exact enqueue_links_nodup _ _ _ _ (List.Nodup.of_cons h3)
  | case5 url0 rest visited pages hlen =>
    intro h1 h2 h3
    rw [crawl_loop, dif_neg hlen]
    exact ⟨h1, h2, h3⟩

/-- C2.  Within one run the frontier never produces two `PageAudit` records
for the same normalised URL: a URL is normalised before the visited check
(and enters the queue already normalised), a visited or queued URL is never
re-added, and the visited set starts empty each run (dedup is in-run only,
see `run_audit`), so the crawl-ordered page urls are pairwise distinct. -/
theorem run_audit_pages_urls_nodup (env : CrawlEnv) (start_url0 : String) (max_pages : Nat) :
    ((run_audit env start_url0 max_pages).pages.map PageAudit.url).Nodup :=
  (crawl_loop_invariant env (norm_url start_url0) max_pages [norm_url start_url0] [] []
    (by simp) (by simp) (by simp)).1

/-! ### Frontier admission (C6) -/

lemma mem_of_py_startswith {t pre : String} {c : Char} (h : py_startswith t pre = true)
    (hc : c ∈ pre.data) : c ∈ t.data := by
  rw [py_startswith, List.isPrefixOf_iff_prefix] at h
  exact h.subset hc

lemma is_anchor_link_eq_false_of_no_hash {u : String} (hm : '#' ∉ u.data) :
    is_anchor_link u = false := by
  rw [is_anchor_link]
  split
  · rfl
  · have h1 : py_startswith (py_strip u) "#" = false := by
      by_contra hc
      rw [Bool.not_eq_false] at hc
      exact hm (mem_py_strip_subset (mem_of_py_startswith hc (by decide)))
    have h2 : py_startswith (py_strip u) "/#" = false := by
      by_contra hc
      rw [Bool.not_eq_false] at hc
      exact hm (mem_py_strip_subset (mem_of_py_startswith hc (by decide)))
    show (py_startswith (py_strip u) "#" || py_startswith (py_strip u) "/#") = false
    rw [h1, h2]
    rfl

lemma mem_discover_go (urljoin : String → String → String) (final_url : String)
    (max_new : Nat) : ∀ (hrefs links : List String) (u : String),
    u ∈ discover_go urljoin final_url max_new hrefs links →
    u ∈ links ∨ (same_host final_url u = true ∧
      ∃ h ∈ hrefs, discover_skip (py_strip h) = false ∧
        u = norm_url (urljoin final_url (py_strip h))) := by
  intro hrefs
  induction hrefs with
  | nil =>
    intro links u hu
    exact Or.inl hu
  | cons h0 rest ih =>
    intro links u hu
    have hstep : ∀ w : String,
        w ∈ discover_append urljoin final_url links (py_strip h0) →
        w ∈ links ∨ (same_host final_url w = true ∧
          w = norm_url (urljoin final_url (py_strip h0))) := by
      intro w hw
      rw [discover_append] at hw
      by_cases hsame : same_host final_url (norm_url (urljoin final_url (py_strip h0))) = true
      · rw [if_pos hsame] at hw
        rcases List.mem_append.mp hw with hw2 | hone
        · exact Or.inl hw2
        · rw [List.mem_singleton] at hone
          subst hone
          exact Or.inr ⟨hsame, rfl⟩
      · rw [if_neg hsame] at hw
        exact Or.inl hw
    simp only [discover_go] at hu
    by_cases hskip : discover_skip (py_strip h0) = true
    · rw [if_pos hskip] at hu
      rcases ih links u hu with hq | ⟨hsame, h1, hh1, hcond, hequ⟩
      · exact Or.inl hq
      · exact Or.inr ⟨hsame, h1, List.mem_cons_of_mem _ hh1, hcond, hequ⟩
    · rw [Bool.not_eq_true] at hskip
      rw [if_neg (by rw [hskip]; exact Bool.false_ne_true)] at hu
      split at hu
      · rcases hstep u hu with hq | ⟨hsame, hequ⟩
        · exact Or.inl hq
        · exact Or.inr ⟨hsame, h0, List.mem_cons_self _ _, hskip, hequ⟩
      · rcases ih _ u hu with hq | ⟨hsame, h1, hh1, hcond, hequ⟩
        · rcases hstep u hq with hq2 | ⟨hsame, hequ⟩
          · exact Or.inl hq2
          · exact Or.inr ⟨hsame, h0, List.mem_cons_self _ _, hskip, hequ⟩
        · exact Or.inr ⟨hsame, h1, List.mem_cons_of_mem _ hh1, hcond, hequ⟩

/-- C6.  Frontier admission: every URL `discover_internal_links` yields is
same-host, comes from a non-skippable (not `mailto:`/`tel:`/`javascript:`)
and not `'#'`-prefixed href, is the normalised resolved URL of that href
and — the fragment being stripped by normalisation — is never an anchor
link; and the orchestrator's enqueue adds a URL to the queue only when it
is not already queued, not visited, and on the start host. -/
theorem frontier_only_admits_same_host_non_anchor :
    (∀ (urljoin : String → String → String) (final_url : String)
       (hrefs : List String) (n : Nat) (u : String),
      u ∈ discover_internal_links urljoin final_url hrefs n →
      same_host final_url u = true ∧ is_anchor_link u = false ∧
      ∃ h ∈ hrefs, discover_skip (py_strip h) = false ∧
        u = norm_url (urljoin final_url (py_strip h))) ∧
    (∀ (start_url : String) (visited q links : List String) (u : String),
      u ∈ enqueue_links start_url visited q links →
      u ∈ q ∨ (u ∈ links ∧ u ∉ visited ∧ same_host start_url u = true)) := by
  constructor
  · intro urljoin final_url hrefs n u hu
    rcases mem_discover_go urljoin final_url n hrefs [] u hu with hfalse | ⟨hsame, h, hh, hcond, hequ⟩
    · exact absurd hfalse (List.not_mem_nil u)
    · refine ⟨hsame, ?_, h, hh, hcond, hequ⟩
      rw [hequ]
      exact is_anchor_link_eq_false_of_no_hash (norm_url_no_hash _)
  · exact fun start_url visited q links u => mem_enqueue_links start_url visited links q u

/-- C6 witness: a concrete discovery step.  With the identity-join on an
absolute href `"https://a.com/p#sec"`, the discovered URL is the
defragmented `"https://a.com/p"`: same-host, not an anchor, admitted to an
empty frontier. -/
theorem frontier_only_admits_same_host_non_anchor_witness :
    "https://a.com/p" ∈
      discover_internal_links (fun _ h => h) "https://a.com/" ["https://a.com/p#sec"] 80 ∧
    (same_host "https://a.com/" "https://a.com/p" = true ∧
     is_anchor_link "https://a.com/p" = false ∧
     ∃ h ∈ ["https://a.com/p#sec"], discover_skip (py_strip h) = false ∧
       "https://a.com/p" = norm_url ((fun _ h2 => h2) "https://a.com/" (py_strip h))) ∧
    "https://a.com/p" ∈ enqueue_links "https://a.com/" [] [] ["https://a.com/p"] ∧
    ("https://a.com/p" ∈ ([] : List String) ∨
     ("https://a.com/p" ∈ ["https://a.com/p"] ∧ "https://a.com/p" ∉ ([] : List String) ∧
      same_host "https://a.com/" "https://a.com/p" = true)) := by
  have hd : "https://a.com/p" ∈
      discover_internal_links (fun _ h => h) "https://a.com/" ["https://a.com/p#sec"] 80 := by
    decide
  have he : "https://a.com/p" ∈ enqueue_links "https://a.com/" [] [] ["https://a.com/p"] := by
    decide
  exact ⟨hd, frontier_only_admits_same_host_non_anchor.1 _ _ _ _ _ hd, he,
    frontier_only_admits_same_host_non_anchor.2 _ _ _ _ _ he⟩

/-! ### Fetch failure and run completion (C7) -/

lemma crawl_loop_all_fail (env : CrawlEnv) (hfetch : ∀ x, env.fetch x = none)
    (start_url : String) (max_pages : Nat) :
    ∀ q v p, (∀ r ∈ p, r.status = some 0 ∧ r.load_time_sec = 0 ∧
        r.issues = [msg_load_fail]) →
      ∀ r ∈ (crawl_loop env start_url max_pages q v p).pages,
        r.status = some 0 ∧ r.load_time_sec = 0 ∧ r.issues = [msg_load_fail] := by
  intro q v p
  induction q, v, p using crawl_loop.induct env start_url max_pages with
  | case1 visited pages =>
    intro hp
    rw [crawl_loop]
    exact hp
  | case2 url0 rest visited pages hlen hvis ih =>
    intro hp
    rw [crawl_loop, dif_pos hlen, if_pos hvis]
    exact ih hp
  | case3 url0 rest visited pages hlen hvis heq ih =>
    intro hp
    rw [crawl_loop, dif_pos hlen, if_neg hvis, heq]
    refine ih ?_
    intro r hr
    rcases List.mem_append.mp hr with hold | hnew
    · exact hp r hold
    · rw [List.mem_singleton] at hnew
      subst hnew
      exact ⟨rfl, rfl, rfl⟩
  | case4 url0 rest visited pages hlen hvis r heq ih =>
    exact absurd heq (by rw [hfetch]; exact fun h => Option.noConfusion h)
  | case5 url0 rest visited pages hlen =>
    intro hp
    rw [crawl_loop, dif_neg hlen]
    exact hp

/-- C7.  A fetch failure produces exactly the degraded record — status 0,
zero load time, the single could-not-load issue — with the URL marked
visited before the loop continues (so it is never retried); `crawl_loop`
and `run_audit` are total functions, so the run always completes with a
`SiteAudit`, and when every fetch fails every produced page is such a
degraded record. -/
theorem fetch_failure_degraded_record_and_run_completes :
    (∀ (env : CrawlEnv) (start_url : String) (max_pages : Nat) (url0 : String)
       (rest visited : List String) (pages : List PageAudit),
      pages.length < max_pages → norm_url url0 ∉ visited →
      env.fetch (norm_url url0) = none →
      crawl_loop env start_url max_pages (url0 :: rest) visited pages =
        crawl_loop env start_url max_pages rest (norm_url url0 :: visited)
          (pages ++ [fail_record (norm_url url0)])) ∧
    (∀ u : String, (fail_record u).status = some 0 ∧ (fail_record u).load_time_sec = 0 ∧
      (fail_record u).issues = [msg_load_fail] ∧ (fail_record u).url = u ∧
      (fail_record u).url ∈ u :: ([] : List String)) ∧
    (∀ (env : CrawlEnv) (start_url0 : String) (max_pages : Nat),
      (∀ x, env.fetch x = none) →
      ∀ r ∈ (run_audit env start_url0 max_pages).pages,
        r.status = some 0 ∧ r.load_time_sec = 0 ∧ r.issues = [msg_load_fail]) := by
  refine ⟨?_, ?_, ?_⟩
  · intro env start_url max_pages url0 rest visited pages hlen hvis heq
    rw [crawl_loop, dif_pos hlen, if_neg hvis, heq]
  · intro u
    exact ⟨rfl, rfl, rfl, rfl, List.mem_cons_self _ _⟩
  · intro env start_url0 max_pages hfetch r hr
    exact crawl_loop_all_fail env hfetch (norm_url start_url0) max_pages
      [norm_url start_url0] [] [] (by simp) r hr

/-- The all-failures environment of the C7 witness: the identity join,
every fetch raising, every probe unreachable. -/
def all_fail_env : CrawlEnv :=
  { urljoin := fun _ h => h, fetch := fun _ => none, probe := fun _ => false }

/-- C7 witness: one concrete failing step and a concrete all-failures run.
Applying the theorem at `all_fail_env` discharges every hypothesis at a
concrete input. -/
theorem fetch_failure_degraded_record_witness :
    (crawl_loop all_fail_env "http://a.com" 2 ["http://a.com"] [] [] =
      crawl_loop all_fail_env "http://a.com" 2 [] [norm_url "http://a.com"]
        ([] ++ [fail_record (norm_url "http://a.com")])) ∧
    ((fail_record "http://a.com").status = some 0 ∧
     (fail_record "http://a.com").load_time_sec = 0 ∧
     (fail_record "http://a.com").issues = [msg_load_fail] ∧
     (fail_record "http://a.com").url = "http://a.com" ∧
     (fail_record "http://a.com").url ∈ "http://a.com" :: ([] : List String)) ∧
    (∀ r ∈ (run_audit all_fail_env "http://a.com" 2).pages,
      r.status = some 0 ∧ r.load_time_sec = 0 ∧ r.issues = [msg_load_fail]) := by
  refine ⟨?_, ?_, ?_⟩
  · exact fetch_failure_degraded_record_and_run_completes.1 all_fail_env "http://a.com" 2
      "http://a.com" [] [] [] (by norm_num) (by decide) rfl
  · exact fetch_failure_degraded_record_and_run_completes.2.1 "http://a.com"
  · exact fetch_failure_degraded_record_and_run_completes.2.2 all_fail_env "http://a.com" 2
      (fun _ => rfl)

end SeoAudit
